import Mathlib

/-!
# OLEDInfo firmware: UART-to-I2C bridge

A shallow embedding of `Firmware/i2c_master.cpp` (hardware TWI driver),
`Firmware/main.cpp` (serial command decoder) and `Firmware/i2c.c` (USI
bit-banged driver), together with the properties of the specification
that are about them.

Memory-mapped registers whose read value is produced by the peripheral
(`TWCR`, `TWSR`, `TWDR`, `PINB`, `USISR`, `USIDR`) are read from a stream of
hardware-supplied values: the `k`-th read of a register returns the `k`-th
element of its stream, truncated to 8 bits.  Every behaviour of the
peripheral is one choice of streams.  Plain read/write registers (`TWBR`,
`DDRB`, `PORTB`) return the value last written.  All register writes are
appended, in program order, to a trace.
-/

namespace OLEDInfo

/-! ## Constants of avr-libc (`avr/io.h`, `util/twi.h`, `avr/wdt.h`) -/

/-- Bit-value helper of avr-libc: `_BV(bit) = 1 << bit`. -/
def _BV (bit : Nat) : Nat := 1 <<< bit

def TWINT : Nat := 7
def TWEA : Nat := 6
def TWSTA : Nat := 5
def TWSTO : Nat := 4
def TWEN : Nat := 2

def TW_START : Nat := 0x08
def TW_REP_START : Nat := 0x10
def TW_MT_SLA_ACK : Nat := 0x18
def TW_MT_DATA_ACK : Nat := 0x28
def TW_MT_DATA_NACK : Nat := 0x30
def TW_MR_SLA_ACK : Nat := 0x40
def TW_MR_DATA_ACK : Nat := 0x50

def WDTO_120MS : Nat := 3

/-! ## Declarations of `i2c_master.hpp` -/

/-- Transaction direction, `I2C::mode_t`. -/
inductive mode_t where
  | write
  | read
  deriving DecidableEq, Repr

/-- The header `i2c_master.hpp` is not among the sources; what the code uses
from it (the mask `I2C::STATUS_MASK` and the numeric values of the two
enumerators of `I2C::mode_t`) is taken as a parameter. -/
structure Header where
  STATUS_MASK : Nat
  mode_write : Nat
  mode_read : Nat

/-- The conversion `static_cast<uint8_t>(mode)`. -/
def Header.cast (hdr : Header) : mode_t → Nat
  | mode_t.write => hdr.mode_write % 256
  | mode_t.read => hdr.mode_read % 256

/-- Modelled from the spec: the values of `i2c_master.hpp`, which is missing.
The write direction bit is 0 (the scenario of the specification sends address
`0x50` as the byte `0xA0`); the read direction bit is the complementary 1 and
the status mask is `0xF8`, the five status bits of `TWSR`, as in `TW_READ` and
`TW_STATUS_MASK` of avr-libc. The general theorems hold for every `Header`;
this one is used in the concrete examples. -/
def avrHeader : Header := ⟨0xF8, 0, 1⟩

/-! ## The TWI peripheral -/

/-- Values the peripheral returns on successive reads of its registers. -/
structure Bus where
  twcr : Nat → Nat
  twsr : Nat → Nat
  twdr : Nat → Nat

/-- The registers of the TWI peripheral. -/
inductive Reg where
  | TWBR
  | TWSR
  | TWDR
  | TWCR
  deriving DecidableEq, Repr

/-- Software-visible state of the TWI peripheral: the bit-rate register, the
value last written to `TWSR`, the number of reads made so far of each
hardware-driven register, and the trace of register writes. -/
structure TWI where
  TWBR : Nat
  TWSR : Nat
  crReads : Nat
  srReads : Nat
  drReads : Nat
  trace : List (Reg × Nat)

/-- An assignment `reg = v`. -/
def TWI.store (st : TWI) (reg : Reg) (v : Nat) : TWI :=
  { st with trace := st.trace ++ [(reg, v)] }

namespace I2C

def start_condi (st : TWI) : TWI := st.store Reg.TWCR (_BV TWINT ||| _BV TWSTA ||| _BV TWEN)
def stop_condi (st : TWI) : TWI := st.store Reg.TWCR (_BV TWINT ||| _BV TWEN ||| _BV TWSTO)
def ack_condi (st : TWI) : TWI := st.store Reg.TWCR (_BV TWINT ||| _BV TWEN ||| _BV TWEA)
def nack_condi (st : TWI) : TWI := st.store Reg.TWCR (_BV TWINT ||| _BV TWEN)
def send_data (st : TWI) : TWI := st.store Reg.TWCR (_BV TWINT ||| _BV TWEN)
def set_data (st : TWI) (data : Nat) : TWI := st.store Reg.TWDR data
def reset (st : TWI) : TWI := st.store Reg.TWCR 0

/-- The data register read `get_data`. -/
def get_data (hw : Bus) (st : TWI) : Nat × TWI :=
  (hw.twdr st.drReads % 256, { st with drReads := st.drReads + 1 })

/-- The polling loop of `wait`.  `twcr` is the stream of values `TWCR` reads
as, `reads` the number of `TWCR` reads made so far and `timeout` the 16-bit
counter; the result is the number of reads and the counter at loop exit.  Each
evaluation of the loop condition reads `TWCR` once. -/
def wait_loop (twcr : Nat → Nat) (reads timeout : Nat) : Nat × Nat :=
  if h : twcr reads % 256 &&& _BV TWINT = 0 ∧ timeout &&& 0x8000 = 0 then
    wait_loop twcr (reads + 1) ((timeout + 1) % 65536)
  else
    (reads + 1, timeout)
termination_by 0x8000 - timeout % 65536
decreasing_by
  have hb : (timeout &&& 2 ^ 15).testBit 15 = false := by
    have h2 : timeout &&& 2 ^ 15 = 0 := h.2
    rw [h2]; simp
  rw [Nat.testBit_and, Nat.testBit_two_pow_self, Bool.and_true, Nat.testBit_to_div_mod] at hb
  have hd : ¬ (timeout / 2 ^ 15 % 2 = 1) := by simpa using hb
  norm_num at hd
  omega

/-- The bounded busy-wait `wait`. -/
def wait (hw : Bus) (st : TWI) : TWI :=
  { st with crReads := (wait_loop hw.twcr st.crReads 0).1 }

/-- The masked status `status`, `TWSR & STATUS_MASK` as a `uint8_t`. -/
def status (hdr : Header) (hw : Bus) (st : TWI) : Nat × TWI :=
  ((hw.twsr st.srReads % 256 &&& hdr.STATUS_MASK) % 256, { st with srReads := st.srReads + 1 })

/-- One-time configuration `init`. -/
def init (hw : Bus) (st : TWI) (twbr twsr : Nat) : Bool × TWI :=
  if st.TWBR ≠ 0 then
    (false, st)
  else
    let st1 := { st.store Reg.TWBR twbr with TWBR := twbr }
    let v := (hw.twsr st1.srReads % 256 ||| twsr) % 256
    let st2 := { st1 with srReads := st1.srReads + 1 }
    (true, { st2.store Reg.TWSR v with TWSR := v })

/-- Byte transmission `write`. -/
def write (hdr : Header) (hw : Bus) (st : TWI) (data : Nat) : Nat × TWI :=
  if st.TWBR = 0 then
    (0, st)
  else
    let st1 := wait hw (send_data (set_data st data))
    let r := status hdr hw st1
    (if r.1 ≠ TW_MT_DATA_ACK ∧ r.1 ≠ TW_MR_DATA_ACK then r.1 else 0, r.2)

/-- Start of a transaction `start`: START condition, then the address byte. -/
def start (hdr : Header) (hw : Bus) (st : TWI) (address : Nat) (mode : mode_t) : Nat × TWI :=
  if st.TWBR = 0 then
    (0, st)
  else
    let st1 := wait hw (start_condi (reset st))
    let r := status hdr hw st1
    if r.1 ≠ TW_START ∧ r.1 ≠ TW_REP_START then
      (r.1, r.2)
    else
      let w := write hdr hw r.2 (((address <<< 1) ||| hdr.cast mode) % 256)
      (if w.1 ≠ TW_MT_SLA_ACK ∧ w.1 ≠ TW_MR_SLA_ACK then w.1 else 0, w.2)

/-- Reception of a byte answered with ACK, `read_ack`. -/
def read_ack (hw : Bus) (st : TWI) : Nat × TWI :=
  if st.TWBR = 0 then
    (0, st)
  else
    get_data hw (wait hw (ack_condi st))

/-- Reception of a byte answered with NACK, `read_nack`. -/
def read_nack (hw : Bus) (st : TWI) : Nat × TWI :=
  if st.TWBR = 0 then
    (0, st)
  else
    get_data hw (wait hw (nack_condi st))

/-- The STOP condition `stop`. -/
def stop (st : TWI) : TWI := stop_condi st

end I2C

/-- The masked status that the `k`-th read of `TWSR` yields (what `status`
returns when `k` reads of `TWSR` came before). -/
def statusAt (hdr : Header) (hw : Bus) (k : Nat) : Nat :=
  (hw.twsr k % 256 &&& hdr.STATUS_MASK) % 256

/-- The peripheral after the START phase of `start` on a configured session:
`TWCR` cleared and loaded with the START command, the wait, one status read. -/
def afterStart (hw : Bus) (st : TWI) : TWI :=
  { st with
    trace := st.trace ++ [(Reg.TWCR, 0), (Reg.TWCR, 0xA4)]
    crReads := (I2C.wait_loop hw.twcr st.crReads 0).1
    srReads := st.srReads + 1 }

/-- A peripheral for examples: every read of `TWCR` gives `cr`, the successive
reads of `TWSR` give the elements of `srs` (then 0), `TWDR` reads as 0. -/
def scriptBus (cr : Nat) (srs : List Nat) : Bus :=
  ⟨fun _ => cr, fun k => srs.getD k 0, fun _ => 0⟩

/-- A configured peripheral for examples: `TWBR = 1`, as `main` programs it. -/
def configuredTWI : TWI :=
  { TWBR := 1, TWSR := 0, crReads := 0, srReads := 0, drReads := 0, trace := [] }

/-! ## The serial command decoder (`main.cpp`) -/

/-- Calls the receive callback makes into the I2C session and the watchdog. -/
inductive Call where
  | start (address : Nat) (mode : mode_t)
  | write (data : Nat)
  | stop
  | wdt_enable (value : Nat)
  | wdt_reset
  | wdt_disable
  deriving DecidableEq, Repr

/-- State of the firmware while it serves receive interrupts: the three static
variables `n`, `i`, `counter` of the callback, whether the watchdog is armed,
the calls made so far by the callback, and the TWI peripheral. -/
structure Decoder where
  n : Nat
  i : Nat
  counter : Nat
  wdt : Bool
  calls : List Call
  twi : TWI

/-- The lambda that `main` registers with `UART::recv`, run on one received
byte `data`. -/
def recv_fx (hdr : Header) (hw : Bus) (s : Decoder) (data : Nat) : Decoder :=
  if s.n = 0 then
    { s with
      twi := (I2C.start hdr hw s.twi data mode_t.write).2
      calls := s.calls ++ [Call.start data mode_t.write]
      n := (s.n + 1) % 256 }
  else if s.n = 1 then
    { s with
      counter := (data <<< 8) % 65536
      n := (s.n + 1) % 256 }
  else if s.n = 2 then
    { s with
      counter := (s.counter ||| data) % 65536
      i := 0
      wdt := true
      calls := s.calls ++ [Call.wdt_enable WDTO_120MS]
      n := (s.n + 1) % 256 }
  else if s.n = 3 then
    let twi1 := (I2C.write hdr hw s.twi data).2
    let i1 := (s.i + 1) % 65536
    if i1 ≥ s.counter then
      { s with
        twi := I2C.stop twi1
        i := i1
        wdt := false
        calls := s.calls ++ [Call.write data, Call.wdt_reset, Call.stop, Call.wdt_disable]
        n := 0 }
    else
      { s with
        twi := twi1
        i := i1
        calls := s.calls ++ [Call.write data, Call.wdt_reset] }
  else
    { s with n := (s.n + 1) % 256 }

/-- The receive interrupt fires once per byte: the callback is run on the
received bytes in order. -/
def feed (hdr : Header) (hw : Bus) (s : Decoder) (bytes : List Nat) : Decoder :=
  bytes.foldl (recv_fx hdr hw) s

/-- The decoder when `main` enters its idle loop: `I2C::init(1, 0)` has run on
the peripheral `twi`, the statics are zero and the watchdog is not armed. -/
def boot (hw : Bus) (twi : TWI) : Decoder :=
  { n := 0, i := 0, counter := 0, wdt := false, calls := [], twi := (I2C.init hw twi 1 0).2 }

/-- The TWI peripheral after reset: all registers zero, nothing written. -/
def TWI.fresh : TWI :=
  { TWBR := 0, TWSR := 0, crReads := 0, srReads := 0, drReads := 0, trace := [] }

/-- What the I2C session does on the bus, as far as the specification
observes it. -/
inductive BusEvent where
  | START
  | DATA (byte : Nat)
  | STOP
  deriving DecidableEq, Repr

/-- The bus activity a register write causes: a control-register write with
`TWSTA` set issues a START, one with `TWSTO` set issues a STOP, and a write to
the data register loads a byte to transfer; other writes cause none. -/
def busEvent : Reg × Nat → Option BusEvent
  | (Reg.TWCR, v) =>
    if v &&& _BV TWSTA ≠ 0 then some BusEvent.START
    else if v &&& _BV TWSTO ≠ 0 then some BusEvent.STOP
    else none
  | (Reg.TWDR, v) => some (BusEvent.DATA v)
  | _ => none

/-- The bus activity of a trace of register writes. -/
def busEvents (trace : List (Reg × Nat)) : List BusEvent :=
  trace.filterMap busEvent

/-- Register writes of `I2C::write` for the bytes of a list, one after the
other. -/
def dataWrites (bytes : List Nat) : List (Reg × Nat) :=
  bytes.flatMap fun b => [(Reg.TWDR, b), (Reg.TWCR, 0x84)]

/-- Calls made by the callback while it forwards the bytes of a list without
completing the frame. -/
def forwardCalls (bytes : List Nat) : List Call :=
  bytes.flatMap fun b => [Call.write b, Call.wdt_reset]

/-- The data bytes the callback has passed to `I2C::write`, in order. -/
def forwarded (calls : List Call) : List Nat :=
  calls.filterMap fun c =>
    match c with
    | Call.write d => some d
    | _ => none

/-! ## The USI bit-banged driver (`i2c.c`, `i2c.h`) -/

def USIOIF : Nat := 6
def USISIF : Nat := 7
def USIPF : Nat := 5
def USIDC : Nat := 4
def USICNT0 : Nat := 0
def USISIE : Nat := 7
def USIOIE : Nat := 6
def USIWM1 : Nat := 5
def USIWM0 : Nat := 4
def USICS1 : Nat := 3
def USICS0 : Nat := 2
def USICLK : Nat := 1
def USITC : Nat := 0

def PIN_USI_SDA : Nat := 0
def PIN_USI_SCL : Nat := 2
def TWI_NACK_BIT : Nat := 0

def USISR_8bit : Nat :=
  1 <<< USISIF ||| 1 <<< USIOIF ||| 1 <<< USIPF ||| 1 <<< USIDC ||| 0x0 <<< USICNT0
def USISR_1bit : Nat :=
  1 <<< USISIF ||| 1 <<< USIOIF ||| 1 <<< USIPF ||| 1 <<< USIDC ||| 0xE <<< USICNT0

/-- Values the USI and port B return on successive reads. -/
structure Wire where
  pinb : Nat → Nat
  usisr : Nat → Nat
  usidr : Nat → Nat

/-- The registers the USI driver writes. -/
inductive UReg where
  | USISR
  | USICR
  | USIDR
  | DDRB
  | PORTB
  deriving DecidableEq, Repr

/-- Software-visible state of the USI and port B. -/
structure USI where
  DDRB : Nat
  PORTB : Nat
  pinReads : Nat
  srReads : Nat
  drReads : Nat
  trace : List (UReg × Nat)

/-- An assignment `reg = v`. -/
def USI.store (st : USI) (reg : UReg) (v : Nat) : USI :=
  { st with trace := st.trace ++ [(reg, v)] }

/-- The wait `loop_until_bit_is_set(PIN_USI_CL, PIN_USI_SCL)`, which the source
does not bound: at most `fuel` reads of `PINB`, `none` if SCL was low at all of
them. -/
def loop_until_SCL (hw : Wire) : Nat → USI → Option USI
  | 0, _ => none
  | fuel + 1, st =>
    if hw.pinb st.pinReads % 256 &&& _BV PIN_USI_SCL ≠ 0 then
      some { st with pinReads := st.pinReads + 1 }
    else
      loop_until_SCL hw fuel { st with pinReads := st.pinReads + 1 }

/-- The `do ... while (bit_is_clear(USISR, USIOIF))` loop of `transfer`, for at
most `rounds` iterations, each SCL wait inside bounded by `fuel`. -/
def transfer_loop (hw : Wire) (fuel : Nat) (data : Nat) : Nat → USI → Option USI
  | 0, _ => none
  | rounds + 1, st =>
    match loop_until_SCL hw fuel (st.store UReg.USICR data) with
    | none => none
    | some st1 =>
      let st2 := st1.store UReg.USICR data
      let st3 := { st2 with srReads := st2.srReads + 1 }
      if hw.usisr st2.srReads % 256 &&& _BV USIOIF = 0 then
        transfer_loop hw fuel data rounds st3
      else
        some st3

/-- The shift primitive `transfer`; returns the byte read from `USIDR`. -/
def transfer (hw : Wire) (fuel : Nat) (st : USI) (data : Nat) : Option (Nat × USI) :=
  let st1 := st.store UReg.USISR data
  let data1 :=
    0 <<< USISIE ||| 0 <<< USIOIE ||| 1 <<< USIWM1 ||| 0 <<< USIWM0 |||
    1 <<< USICS1 ||| 0 <<< USICS0 ||| 1 <<< USICLK ||| 1 <<< USITC
  match transfer_loop hw fuel data1 fuel st1 with
  | none => none
  | some st2 =>
    let data2 := hw.usidr st2.drReads % 256
    let st3 := { st2 with drReads := st2.drReads + 1 }
    let st4 := st3.store UReg.USIDR 0xFF
    let ddr := (st4.DDRB ||| _BV PIN_USI_SDA) % 256
    some (data2, { st4.store UReg.DDRB ddr with DDRB := ddr })

/-- Byte transmission `i2c_put_u08` of the software-timed driver. -/
def i2c_put_u08 (hw : Wire) (fuel : Nat) (st : USI) (data : Nat) : Option (Nat × USI) :=
  let port := st.PORTB &&& (0xFF ^^^ _BV PIN_USI_SCL)
  let st1 := { st.store UReg.PORTB port with PORTB := port }
  let st2 := st1.store UReg.USIDR data
  match transfer hw fuel st2 USISR_8bit with
  | none => none
  | some (_, st3) =>
    let ddr := st3.DDRB &&& (0xFF ^^^ _BV PIN_USI_SDA)
    let st4 := { st3.store UReg.DDRB ddr with DDRB := ddr }
    match transfer hw fuel st4 USISR_1bit with
    | none => none
    | some (r, st5) => some (if r &&& _BV TWI_NACK_BIT ≠ 0 then 0 else 1, st5)

/-- A USI for examples: SCL always reads high, the counter-overflow flag always
reads set, and `USIDR` always reads `r`. -/
def steadyWire (r : Nat) : Wire :=
  ⟨fun _ => 0x04, fun _ => 0x40, fun _ => r⟩

/-- The USI and port B after reset: all registers zero, nothing written. -/
def USI.fresh : USI :=
  { DDRB := 0, PORTB := 0, pinReads := 0, srReads := 0, drReads := 0, trace := [] }

/-! ## Facts about the embedding -/

theorem and_8000_eq_zero_iff (t : Nat) : t &&& 0x8000 = 0 ↔ t / 32768 % 2 = 0 := by
  have key : (t &&& 2 ^ 15 = 0) ↔ t.testBit 15 = false := by
    constructor
    · intro h
      have hb : (t &&& 2 ^ 15).testBit 15 = false := by rw [h]; simp
      rwa [Nat.testBit_and, Nat.testBit_two_pow_self, Bool.and_true] at hb
    · intro h
      apply Nat.eq_of_testBit_eq
      intro i
      rw [Nat.testBit_and, Nat.testBit_two_pow, Nat.zero_testBit]
      by_cases hi : 15 = i
      · subst hi; simp [h]
      · simp [hi]
  have h15 : (0x8000 : Nat) = 2 ^ 15 := by norm_num
  rw [h15, key, Nat.testBit_to_div_mod]
  have : (2 : Nat) ^ 15 = 32768 := by norm_num
  rw [this]
  constructor
  · intro h
    have hd : ¬ (t / 32768 % 2 = 1) := by simpa using h
    omega
  · intro h
    simp [h]

theorem wait_loop_ready (twcr : Nat → Nat) (r t : Nat) (h : twcr r % 256 &&& _BV TWINT ≠ 0) :
    I2C.wait_loop twcr r t = (r + 1, t) := by
  rw [I2C.wait_loop]
  simp [h]

theorem wait_loop_bound (twcr : Nat → Nat) :
    ∀ (d t r : Nat), t ≤ 0x8000 → 0x8000 - t = d →
      t ≤ (I2C.wait_loop twcr r t).2 ∧ (I2C.wait_loop twcr r t).2 ≤ 0x8000 ∧
      (I2C.wait_loop twcr r t).1 = r + 1 + ((I2C.wait_loop twcr r t).2 - t) := by
  intro d
  induction d with
  | zero =>
    intro t r ht hd
    have ht2 : t = 0x8000 := by omega
    subst ht2
    rw [I2C.wait_loop]
    have : ¬ ((0x8000 : Nat) &&& 0x8000 = 0) := by decide
    simp [this]
  | succ d ih =>
    intro t r ht hd
    rw [I2C.wait_loop]
    split
    · have h1 : (t + 1) % 65536 = t + 1 := by omega
      rw [h1]
      obtain ⟨a, b, c⟩ := ih (t + 1) (r + 1) (by omega) (by omega)
      refine ⟨by omega, b, ?_⟩
      rw [c]; omega
    · simp; omega

theorem wait_loop_stuck (twcr : Nat → Nat) (hs : ∀ k, twcr k % 256 &&& _BV TWINT = 0) :
    ∀ (d t r : Nat), t ≤ 0x8000 → 0x8000 - t = d →
      I2C.wait_loop twcr r t = (r + 1 + d, 0x8000) := by
  intro d
  induction d with
  | zero =>
    intro t r ht hd
    have ht2 : t = 0x8000 := by omega
    subst ht2
    rw [I2C.wait_loop]
    have : ¬ ((0x8000 : Nat) &&& 0x8000 = 0) := by decide
    simp [this]
  | succ d ih =>
    intro t r ht hd
    rw [I2C.wait_loop]
    have h0 : t &&& 0x8000 = 0 := by
      rw [and_8000_eq_zero_iff]
      have : t / 32768 = 0 := by omega
      rw [this]
    have h1 : (t + 1) % 65536 = t + 1 := by omega
    rw [dif_pos ⟨hs r, h0⟩, h1, ih (t + 1) (r + 1) (by omega) (by omega)]
    congr 1
    omega

theorem wait_crReads (hw : Bus) (st : TWI) :
    (I2C.wait hw st).crReads = st.crReads + 1 + (I2C.wait_loop hw.twcr st.crReads 0).2 ∧
    (I2C.wait_loop hw.twcr st.crReads 0).2 ≤ 0x8000 := by
  obtain ⟨_, b, c⟩ := wait_loop_bound hw.twcr 0x8000 0 st.crReads (by omega) rfl
  refine ⟨?_, b⟩
  simp only [I2C.wait]
  rw [c]; rfl

@[simp] theorem wait_TWBR (hw : Bus) (st : TWI) : (I2C.wait hw st).TWBR = st.TWBR := rfl
@[simp] theorem wait_TWSR (hw : Bus) (st : TWI) : (I2C.wait hw st).TWSR = st.TWSR := rfl
@[simp] theorem wait_trace (hw : Bus) (st : TWI) : (I2C.wait hw st).trace = st.trace := rfl
@[simp] theorem wait_srReads (hw : Bus) (st : TWI) : (I2C.wait hw st).srReads = st.srReads := rfl
@[simp] theorem wait_drReads (hw : Bus) (st : TWI) : (I2C.wait hw st).drReads = st.drReads := rfl

theorem wait_polls_le (hw : Bus) (st : TWI) : (I2C.wait hw st).crReads ≤ st.crReads + 0x8001 := by
  have := wait_crReads hw st
  omega

theorem or_mod_256 (x y : Nat) : (x ||| y) % 256 = x % 256 ||| y % 256 := by
  have h : (256 : Nat) = 2 ^ 8 := by norm_num
  rw [h]
  apply Nat.eq_of_testBit_eq
  intro i
  simp only [Nat.testBit_mod_two_pow, Nat.testBit_or]
  cases decide (i < 8) <;> simp

theorem send_value : _BV TWINT ||| _BV TWEN = 0x84 := by decide
theorem start_value : _BV TWINT ||| _BV TWSTA ||| _BV TWEN = 0xA4 := by decide
theorem stop_value : _BV TWINT ||| _BV TWEN ||| _BV TWSTO = 0x94 := by decide

theorem status_fst (hdr : Header) (hw : Bus) (st : TWI) :
    (I2C.status hdr hw st).1 = statusAt hdr hw st.srReads := rfl

theorem write_unconfigured (hdr : Header) (hw : Bus) (st : TWI) (data : Nat)
    (h : st.TWBR = 0) : I2C.write hdr hw st data = (0, st) := by
  simp [I2C.write, h]

theorem write_configured (hdr : Header) (hw : Bus) (st : TWI) (data : Nat)
    (h : st.TWBR ≠ 0) :
    I2C.write hdr hw st data =
      (if statusAt hdr hw st.srReads ≠ TW_MT_DATA_ACK ∧
          statusAt hdr hw st.srReads ≠ TW_MR_DATA_ACK then statusAt hdr hw st.srReads else 0,
       { st with
         trace := st.trace ++ [(Reg.TWDR, data), (Reg.TWCR, 0x84)]
         crReads := (I2C.wait_loop hw.twcr st.crReads 0).1
         srReads := st.srReads + 1 }) := by
  simp [I2C.write, h, I2C.status, I2C.wait, I2C.send_data, I2C.set_data, TWI.store, statusAt,
    send_value]

theorem start_unconfigured (hdr : Header) (hw : Bus) (st : TWI) (a : Nat) (m : mode_t)
    (h : st.TWBR = 0) : I2C.start hdr hw st a m = (0, st) := by
  simp [I2C.start, h]

theorem start_rejected (hdr : Header) (hw : Bus) (st : TWI) (a : Nat) (m : mode_t)
    (h : st.TWBR ≠ 0)
    (hs : statusAt hdr hw st.srReads ≠ TW_START ∧ statusAt hdr hw st.srReads ≠ TW_REP_START) :
    I2C.start hdr hw st a m = (statusAt hdr hw st.srReads, afterStart hw st) := by
  have hs2 : (I2C.status hdr hw (I2C.wait hw (I2C.start_condi (I2C.reset st)))).1 ≠ TW_START ∧
      (I2C.status hdr hw (I2C.wait hw (I2C.start_condi (I2C.reset st)))).1 ≠ TW_REP_START := hs
  unfold I2C.start
  rw [if_neg (by simpa using h)]
  dsimp only
  rw [if_pos hs2]
  simp [I2C.status, I2C.wait, I2C.start_condi, I2C.reset, TWI.store, statusAt, afterStart,
    start_value]

theorem start_accepted (hdr : Header) (hw : Bus) (st : TWI) (a : Nat) (m : mode_t)
    (h : st.TWBR ≠ 0)
    (hs : statusAt hdr hw st.srReads = TW_START ∨ statusAt hdr hw st.srReads = TW_REP_START) :
    I2C.start hdr hw st a m =
      (if (I2C.write hdr hw (afterStart hw st) (((a <<< 1) ||| hdr.cast m) % 256)).1
            ≠ TW_MT_SLA_ACK ∧
          (I2C.write hdr hw (afterStart hw st) (((a <<< 1) ||| hdr.cast m) % 256)).1
            ≠ TW_MR_SLA_ACK
        then (I2C.write hdr hw (afterStart hw st) (((a <<< 1) ||| hdr.cast m) % 256)).1 else 0,
       (I2C.write hdr hw (afterStart hw st) (((a <<< 1) ||| hdr.cast m) % 256)).2) := by
  have e : (I2C.status hdr hw (I2C.wait hw (I2C.start_condi (I2C.reset st)))).2
      = afterStart hw st := by
    simp [I2C.status, I2C.wait, I2C.start_condi, I2C.reset, TWI.store, afterStart, start_value]
  have hs2 : ¬ ((I2C.status hdr hw (I2C.wait hw (I2C.start_condi (I2C.reset st)))).1 ≠ TW_START ∧
      (I2C.status hdr hw (I2C.wait hw (I2C.start_condi (I2C.reset st)))).1 ≠ TW_REP_START) := by
    have e1 : (I2C.status hdr hw (I2C.wait hw (I2C.start_condi (I2C.reset st)))).1
        = statusAt hdr hw st.srReads := rfl
    rw [e1]
    rcases hs with hs | hs <;> simp [hs]
  unfold I2C.start
  rw [if_neg (by simpa using h)]
  dsimp only
  rw [if_neg hs2, e]

/-! ## Configuration (`I2C::init`) -/

/-- C4, as stated, fails when the first call programs the divisor 0: on a fresh
session `init(0, 0)` leaves `TWBR = 0`, so the following `init(1, 0)` is not a
no-op: it returns true and changes `TWBR` from 0 to 1. -/
theorem init_twice_zero_divisor :
    (I2C.init (scriptBus 0 []) TWI.fresh 0 0).2.TWBR = 0 ∧
    (I2C.init (scriptBus 0 []) (I2C.init (scriptBus 0 []) TWI.fresh 0 0).2 1 0).1 = true ∧
    (I2C.init (scriptBus 0 []) (I2C.init (scriptBus 0 []) TWI.fresh 0 0).2 1 0).2.TWBR = 1 := by
  refine ⟨?_, ?_, ?_⟩ <;> simp [I2C.init, TWI.fresh, TWI.store]

/-- C4 (amended): on an unconfigured session (`TWBR = 0`) a first call
`init(twbr1, twsr1)` with a nonzero divisor `twbr1` returns true and programs
`TWBR = twbr1`; a second call `init(twbr2, twsr2)`, whatever its parameters,
returns false and is a no-op: the peripheral state, `TWBR` and `TWSR` included,
is exactly the one the first call left, and no register is written. -/
theorem init_idempotent (hw : Bus) (st : TWI) (twbr1 twsr1 twbr2 twsr2 : Nat)
    (hfresh : st.TWBR = 0) (hnz : twbr1 ≠ 0) :
    (I2C.init hw st twbr1 twsr1).1 = true ∧
    (I2C.init hw st twbr1 twsr1).2.TWBR = twbr1 ∧
    I2C.init hw (I2C.init hw st twbr1 twsr1).2 twbr2 twsr2
      = (false, (I2C.init hw st twbr1 twsr1).2) ∧
    (I2C.init hw (I2C.init hw st twbr1 twsr1).2 twbr2 twsr2).2.TWBR = twbr1 ∧
    (I2C.init hw (I2C.init hw st twbr1 twsr1).2 twbr2 twsr2).2.TWSR
      = (I2C.init hw st twbr1 twsr1).2.TWSR ∧
    (I2C.init hw (I2C.init hw st twbr1 twsr1).2 twbr2 twsr2).2.trace
      = (I2C.init hw st twbr1 twsr1).2.trace := by
  have h1 : (I2C.init hw st twbr1 twsr1).2.TWBR = twbr1 := by
    simp [I2C.init, hfresh, TWI.store]
  have h2 : I2C.init hw (I2C.init hw st twbr1 twsr1).2 twbr2 twsr2
      = (false, (I2C.init hw st twbr1 twsr1).2) := by
    generalize I2C.init hw st twbr1 twsr1 = r at h1 ⊢
    simp [I2C.init, h1, hnz]
  refine ⟨by simp [I2C.init, hfresh], h1, h2, ?_, ?_, ?_⟩
  · rw [h2]; exact h1
  · rw [h2]
  · rw [h2]

theorem init_idempotent_witness :
    (I2C.init (scriptBus 0 []) TWI.fresh 1 0).2.TWBR = 1 ∧
    I2C.init (scriptBus 0 []) (I2C.init (scriptBus 0 []) TWI.fresh 1 0).2 72 3
      = (false, (I2C.init (scriptBus 0 []) TWI.fresh 1 0).2) :=
  ⟨(init_idempotent (scriptBus 0 []) TWI.fresh 1 0 72 3 rfl (by decide)).2.1,
   (init_idempotent (scriptBus 0 []) TWI.fresh 1 0 72 3 rfl (by decide)).2.2.1⟩

/-! ## Byte transmission (`I2C::write`) -/

/-- C7: `write(data)` on an unconfigured session returns 0 and leaves the
peripheral untouched; on a configured session it writes `data` to `TWDR`, then
the transfer command to `TWCR`, and with `s` the masked status read after the
wait it returns 0 if `s` is `TW_MT_DATA_ACK` or `TW_MR_DATA_ACK` and `s`
otherwise; so it returns a nonzero code on `TW_MT_DATA_NACK` and 0 on
`TW_MT_DATA_ACK`, whatever `data` is. -/
theorem write_ack_nack (hdr : Header) (hw : Bus) (st : TWI) (data : Nat) :
    (st.TWBR = 0 → I2C.write hdr hw st data = (0, st)) ∧
    (st.TWBR ≠ 0 →
      (I2C.write hdr hw st data).2.trace
        = st.trace ++ [(Reg.TWDR, data), (Reg.TWCR, _BV TWINT ||| _BV TWEN)] ∧
      (I2C.write hdr hw st data).1
        = (if statusAt hdr hw st.srReads = TW_MT_DATA_ACK ∨
              statusAt hdr hw st.srReads = TW_MR_DATA_ACK
            then 0 else statusAt hdr hw st.srReads) ∧
      (statusAt hdr hw st.srReads = TW_MT_DATA_NACK → (I2C.write hdr hw st data).1 ≠ 0) ∧
      (statusAt hdr hw st.srReads = TW_MT_DATA_ACK → (I2C.write hdr hw st data).1 = 0)) := by
  refine ⟨write_unconfigured hdr hw st data, fun h => ?_⟩
  rw [write_configured hdr hw st data h]
  refine ⟨by simp [send_value], ?_, ?_, ?_⟩
  · by_cases h1 : statusAt hdr hw st.srReads = TW_MT_DATA_ACK
    · simp [h1]
    · by_cases h2 : statusAt hdr hw st.srReads = TW_MR_DATA_ACK
      · simp [h2]
      · simp [h1, h2]
  · intro hn
    simp [hn, TW_MT_DATA_NACK, TW_MT_DATA_ACK, TW_MR_DATA_ACK]
  · intro ha
    simp [ha]

theorem write_ack_nack_witness :
    I2C.write avrHeader (scriptBus 0x80 [0x30]) TWI.fresh 0xAA = (0, TWI.fresh) ∧
    (I2C.write avrHeader (scriptBus 0x80 [0x30]) configuredTWI 0xAA).1 ≠ 0 ∧
    (I2C.write avrHeader (scriptBus 0x80 [0x28]) configuredTWI 0xAA).1 = 0 :=
  ⟨(write_ack_nack avrHeader (scriptBus 0x80 [0x30]) TWI.fresh 0xAA).1 rfl,
   ((write_ack_nack avrHeader (scriptBus 0x80 [0x30]) configuredTWI 0xAA).2
      (by decide)).2.2.1 (by decide),
   ((write_ack_nack avrHeader (scriptBus 0x80 [0x28]) configuredTWI 0xAA).2
      (by decide)).2.2.2 (by decide)⟩

/-! ## Start of a transaction (`I2C::start`) -/

theorem afterStart_TWBR (hw : Bus) (st : TWI) : (afterStart hw st).TWBR = st.TWBR := rfl

theorem start_accepted_eval (hdr : Header) (hw : Bus) (st : TWI) (a : Nat) (m : mode_t)
    (h : st.TWBR ≠ 0)
    (hs : statusAt hdr hw st.srReads = TW_START ∨ statusAt hdr hw st.srReads = TW_REP_START) :
    I2C.start hdr hw st a m =
      (if statusAt hdr hw (st.srReads + 1) = TW_MT_SLA_ACK ∨
          statusAt hdr hw (st.srReads + 1) = TW_MR_SLA_ACK ∨
          statusAt hdr hw (st.srReads + 1) = TW_MT_DATA_ACK ∨
          statusAt hdr hw (st.srReads + 1) = TW_MR_DATA_ACK
        then 0 else statusAt hdr hw (st.srReads + 1),
       { st with
         trace := st.trace ++ [(Reg.TWCR, 0), (Reg.TWCR, 0xA4),
           (Reg.TWDR, ((a <<< 1) ||| hdr.cast m) % 256), (Reg.TWCR, 0x84)]
         crReads := (I2C.wait_loop hw.twcr (I2C.wait_loop hw.twcr st.crReads 0).1 0).1
         srReads := st.srReads + 2 }) := by
  rw [start_accepted hdr hw st a m h hs,
    write_configured hdr hw (afterStart hw st) _ (by rw [afterStart_TWBR]; exact h)]
  have e : (afterStart hw st).srReads = st.srReads + 1 := rfl
  rw [e]
  refine Prod.ext ?_ ?_
  · by_cases h1 : statusAt hdr hw (st.srReads + 1) = TW_MT_DATA_ACK
    · simp [h1, TW_MT_SLA_ACK, TW_MR_SLA_ACK]
    · by_cases h2 : statusAt hdr hw (st.srReads + 1) = TW_MR_DATA_ACK
      · simp [h2, TW_MT_SLA_ACK, TW_MR_SLA_ACK]
      · by_cases h3 : statusAt hdr hw (st.srReads + 1) = TW_MT_SLA_ACK
        · simp [h3, TW_MT_SLA_ACK, TW_MR_SLA_ACK, TW_MT_DATA_ACK, TW_MR_DATA_ACK]
        · by_cases h4 : statusAt hdr hw (st.srReads + 1) = TW_MR_SLA_ACK
          · simp [h4, TW_MT_SLA_ACK, TW_MR_SLA_ACK, TW_MT_DATA_ACK, TW_MR_DATA_ACK]
          · simp [h1, h2, h3, h4]
  · simp [afterStart]

theorem start_trace_accepted (hdr : Header) (hw : Bus) (st : TWI) (a : Nat) (m : mode_t)
    (h : st.TWBR ≠ 0)
    (hs : statusAt hdr hw st.srReads = TW_START ∨ statusAt hdr hw st.srReads = TW_REP_START) :
    (I2C.start hdr hw st a m).2.trace
      = st.trace ++ [(Reg.TWCR, 0), (Reg.TWCR, 0xA4),
          (Reg.TWDR, ((a <<< 1) % 256) ||| hdr.cast m), (Reg.TWCR, 0x84)] := by
  rw [start_accepted_eval hdr hw st a m h hs]
  have e : hdr.cast m % 256 = hdr.cast m := by
    cases m <;> simp [Header.cast]
  simp [or_mod_256, e]

/-- C5: `start(address, mode)` on an unconfigured session returns 0 and leaves
the peripheral untouched; on a configured session whose masked status `s` after
the START is neither `TW_START` nor `TW_REP_START` it returns `s` and has
written only `TWCR` (cleared, then the START command), never `TWDR`; and when
two peripherals behave alike except that the first reports `TW_START` and the
second `TW_REP_START` after the START, `start` gives the same result and the
same final peripheral state (register writes included) on both. -/
theorem start_phase (hdr : Header) (hw : Bus) (st : TWI) (a : Nat) (m : mode_t) :
    (st.TWBR = 0 → I2C.start hdr hw st a m = (0, st)) ∧
    (st.TWBR ≠ 0 → statusAt hdr hw st.srReads ≠ TW_START →
      statusAt hdr hw st.srReads ≠ TW_REP_START →
        (I2C.start hdr hw st a m).1 = statusAt hdr hw st.srReads ∧
        (I2C.start hdr hw st a m).2.trace
          = st.trace ++ [(Reg.TWCR, 0), (Reg.TWCR, _BV TWINT ||| _BV TWSTA ||| _BV TWEN)] ∧
        busEvents (I2C.start hdr hw st a m).2.trace
          = busEvents st.trace ++ [BusEvent.START]) ∧
    (∀ hw2 : Bus, st.TWBR ≠ 0 → hw2.twcr = hw.twcr →
      (∀ k, k ≠ st.srReads → hw2.twsr k = hw.twsr k) →
      statusAt hdr hw st.srReads = TW_START →
      statusAt hdr hw2 st.srReads = TW_REP_START →
        I2C.start hdr hw2 st a m = I2C.start hdr hw st a m) := by
  refine ⟨start_unconfigured hdr hw st a m, ?_, ?_⟩
  · intro h h1 h2
    rw [start_rejected hdr hw st a m h ⟨h1, h2⟩]
    refine ⟨rfl, by simp [afterStart, start_value], ?_⟩
    simp only [afterStart, busEvents, List.filterMap_append]
    congr 1
  · intro hw2 h hcr hsr hs1 hs2
    rw [start_accepted_eval hdr hw st a m h (Or.inl hs1),
      start_accepted_eval hdr hw2 st a m h (Or.inr hs2), hcr]
    have e : statusAt hdr hw2 (st.srReads + 1) = statusAt hdr hw (st.srReads + 1) := by
      simp only [statusAt]
      rw [hsr (st.srReads + 1) (by omega)]
    rw [e]

theorem start_phase_witness :
    I2C.start avrHeader (scriptBus 0x80 [0x08, 0x18]) TWI.fresh 0x3C mode_t.write
      = (0, TWI.fresh) ∧
    (I2C.start avrHeader (scriptBus 0x80 [0x38, 0x18]) configuredTWI 0x3C mode_t.write).1
      = 0x38 ∧
    I2C.start avrHeader (scriptBus 0x80 [0x10, 0x18]) configuredTWI 0x3C mode_t.write
      = I2C.start avrHeader (scriptBus 0x80 [0x08, 0x18]) configuredTWI 0x3C mode_t.write :=
  ⟨(start_phase avrHeader (scriptBus 0x80 [0x08, 0x18]) TWI.fresh 0x3C mode_t.write).1 rfl,
   ((start_phase avrHeader (scriptBus 0x80 [0x38, 0x18]) configuredTWI 0x3C mode_t.write).2.1
      (by decide) (by decide) (by decide)).1,
   (start_phase avrHeader (scriptBus 0x80 [0x08, 0x18]) configuredTWI 0x3C mode_t.write).2.2
      (scriptBus 0x80 [0x10, 0x18]) (by decide) rfl
      (by
        intro k hk
        have hk0 : k ≠ 0 := hk
        cases k with
        | zero => exact absurd rfl hk0
        | succ j => rfl)
      (by decide) (by decide)⟩

/-- C6, as stated, fails: in Write mode on a configured session whose START was
accepted, `start` returns 0 although the status after the address byte is
`TW_MR_SLA_ACK` (0x40), which is not the Write-mode acknowledgement; it also
returns 0 on the data-phase status `TW_MT_DATA_ACK` (0x28) and on the status
0x00, none of which is `TW_MT_SLA_ACK`. -/
theorem address_phase_mode_blind :
    statusAt avrHeader (scriptBus 0x80 [0x08, 0x40]) 1 = 0x40 ∧
    (0x40 : Nat) ≠ TW_MT_SLA_ACK ∧
    (I2C.start avrHeader (scriptBus 0x80 [0x08, 0x40]) configuredTWI 0x3C mode_t.write).1 = 0 ∧
    statusAt avrHeader (scriptBus 0x80 [0x08, 0x28]) 1 = 0x28 ∧
    (I2C.start avrHeader (scriptBus 0x80 [0x08, 0x28]) configuredTWI 0x3C mode_t.write).1 = 0 ∧
    statusAt avrHeader (scriptBus 0x80 [0x08, 0x00]) 1 = 0 ∧
    (I2C.start avrHeader (scriptBus 0x80 [0x08, 0x00]) configuredTWI 0x3C mode_t.write).1
      = 0 := by
  refine ⟨by decide, by decide, ?_, by decide, ?_, by decide, ?_⟩
  · rw [start_accepted_eval _ _ _ _ _ (by decide) (Or.inl (by decide))]
    decide
  · rw [start_accepted_eval _ _ _ _ _ (by decide) (Or.inl (by decide))]
    decide
  · rw [start_accepted_eval _ _ _ _ _ (by decide) (Or.inl (by decide))]
    decide

/-- C6 (amended): on a configured session whose START was accepted,
`start(address, mode)` writes the address byte
`((address << 1) mod 256) | direction-bit(mode)` to `TWDR` and, with `s` the
masked status read after that byte, returns 0 when `s` is `TW_MT_SLA_ACK` or
`TW_MR_SLA_ACK` (either one, whatever the mode), and returns `s` itself when
`s` is none of `TW_MT_SLA_ACK`, `TW_MR_SLA_ACK`, `TW_MT_DATA_ACK`,
`TW_MR_DATA_ACK`; that returned code is nonzero whenever `s` is nonzero. -/
theorem start_address_phase (hdr : Header) (hw : Bus) (st : TWI) (a : Nat) (m : mode_t)
    (h : st.TWBR ≠ 0)
    (hs : statusAt hdr hw st.srReads = TW_START ∨ statusAt hdr hw st.srReads = TW_REP_START) :
    (I2C.start hdr hw st a m).2.trace
      = st.trace ++ [(Reg.TWCR, 0), (Reg.TWCR, _BV TWINT ||| _BV TWSTA ||| _BV TWEN),
          (Reg.TWDR, ((a <<< 1) % 256) ||| hdr.cast m),
          (Reg.TWCR, _BV TWINT ||| _BV TWEN)] ∧
    (statusAt hdr hw (st.srReads + 1) = TW_MT_SLA_ACK ∨
      statusAt hdr hw (st.srReads + 1) = TW_MR_SLA_ACK → (I2C.start hdr hw st a m).1 = 0) ∧
    (statusAt hdr hw (st.srReads + 1) ≠ TW_MT_SLA_ACK →
      statusAt hdr hw (st.srReads + 1) ≠ TW_MR_SLA_ACK →
      statusAt hdr hw (st.srReads + 1) ≠ TW_MT_DATA_ACK →
      statusAt hdr hw (st.srReads + 1) ≠ TW_MR_DATA_ACK →
        (I2C.start hdr hw st a m).1 = statusAt hdr hw (st.srReads + 1) ∧
        (statusAt hdr hw (st.srReads + 1) ≠ 0 → (I2C.start hdr hw st a m).1 ≠ 0)) := by
  rw [start_accepted_eval hdr hw st a m h hs]
  refine ⟨?_, ?_, ?_⟩
  · have e : hdr.cast m % 256 = hdr.cast m := by
      cases m <;> simp [Header.cast]
    simp [or_mod_256, e, start_value, send_value]
  · intro hk
    rcases hk with hk | hk <;> simp [hk]
  · intro h1 h2 h3 h4
    simp [h1, h2, h3, h4]

theorem start_address_phase_witness :
    (I2C.start avrHeader (scriptBus 0x80 [0x08, 0x18]) configuredTWI 0x50 mode_t.write).2.trace
      = [(Reg.TWCR, 0), (Reg.TWCR, 0xA4), (Reg.TWDR, 0xA0), (Reg.TWCR, 0x84)] ∧
    (I2C.start avrHeader (scriptBus 0x80 [0x08, 0x18]) configuredTWI 0x50 mode_t.write).1 = 0 :=
  ⟨(start_address_phase avrHeader (scriptBus 0x80 [0x08, 0x18]) configuredTWI 0x50
      mode_t.write (by decide) (Or.inl (by decide))).1,
   (start_address_phase avrHeader (scriptBus 0x80 [0x08, 0x18]) configuredTWI 0x50
      mode_t.write (by decide) (Or.inl (by decide))).2.1 (Or.inl (by decide))⟩

/-! ## The bounded busy-wait (`I2C::wait`) -/

theorem wait_loop_fst_le (twcr : Nat → Nat) (r : Nat) :
    (I2C.wait_loop twcr r 0).1 ≤ r + 0x8001 := by
  obtain ⟨_, b, c⟩ := wait_loop_bound twcr 0x8000 0 r (by omega) rfl
  omega

theorem write_polls_le (hdr : Header) (hw : Bus) (st : TWI) (data : Nat) :
    (I2C.write hdr hw st data).2.crReads ≤ st.crReads + 0x8001 := by
  by_cases h : st.TWBR = 0
  · rw [write_unconfigured hdr hw st data h]; show st.crReads ≤ _; omega
  · rw [write_configured hdr hw st data h]
    exact wait_loop_fst_le hw.twcr st.crReads

theorem start_polls_le (hdr : Header) (hw : Bus) (st : TWI) (a : Nat) (m : mode_t) :
    (I2C.start hdr hw st a m).2.crReads ≤ st.crReads + 2 * 0x8001 := by
  by_cases h : st.TWBR = 0
  · rw [start_unconfigured hdr hw st a m h]; show st.crReads ≤ _; omega
  · by_cases hs : statusAt hdr hw st.srReads = TW_START ∨
        statusAt hdr hw st.srReads = TW_REP_START
    · rw [start_accepted_eval hdr hw st a m h hs]
      have h1 := wait_loop_fst_le hw.twcr st.crReads
      have h2 := wait_loop_fst_le hw.twcr (I2C.wait_loop hw.twcr st.crReads 0).1
      show (I2C.wait_loop hw.twcr (I2C.wait_loop hw.twcr st.crReads 0).1 0).1 ≤ _
      omega
    · rw [start_rejected hdr hw st a m h (by
        constructor
        · intro e; exact hs (Or.inl e)
        · intro e; exact hs (Or.inr e))]
      have h1 := wait_loop_fst_le hw.twcr st.crReads
      show (I2C.wait_loop hw.twcr st.crReads 0).1 ≤ _
      omega

/-- C8: `wait` terminates whatever the peripheral does. For every stream of
`TWCR` values the polling loop exits with its counter at most `0x8000`, having
read `TWCR` once more than it has incremented the counter; it exits with zero
increments when `TWINT` is set at the first read, and after exactly `0x8000`
increments when `TWINT` is never set. Hence `start` returns after at most
`2 * 0x8001` polls of `TWCR`, and `write`, `read_ack` and `read_nack` after at
most `0x8001`. -/
theorem wait_terminates (hdr : Header) (hw : Bus) (st : TWI) :
    (I2C.wait_loop hw.twcr st.crReads 0).2 ≤ 0x8000 ∧
    (I2C.wait hw st).crReads = st.crReads + 1 + (I2C.wait_loop hw.twcr st.crReads 0).2 ∧
    (hw.twcr st.crReads % 256 &&& _BV TWINT ≠ 0 →
      (I2C.wait_loop hw.twcr st.crReads 0).2 = 0 ∧ (I2C.wait hw st).crReads = st.crReads + 1) ∧
    ((∀ k, hw.twcr k % 256 &&& _BV TWINT = 0) →
      (I2C.wait_loop hw.twcr st.crReads 0).2 = 0x8000 ∧
      (I2C.wait hw st).crReads = st.crReads + 0x8001) ∧
    (∀ (a : Nat) (m : mode_t),
      (I2C.start hdr hw st a m).2.crReads ≤ st.crReads + 2 * 0x8001) ∧
    (∀ data : Nat, (I2C.write hdr hw st data).2.crReads ≤ st.crReads + 0x8001) ∧
    (I2C.read_ack hw st).2.crReads ≤ st.crReads + 0x8001 ∧
    (I2C.read_nack hw st).2.crReads ≤ st.crReads + 0x8001 := by
  have hw1 := wait_crReads hw st
  refine ⟨hw1.2, hw1.1, ?_, ?_, start_polls_le hdr hw st, write_polls_le hdr hw st, ?_, ?_⟩
  · intro hr
    have e := wait_loop_ready hw.twcr st.crReads 0 hr
    refine ⟨by rw [e], ?_⟩
    rw [hw1.1, e]
    rfl
  · intro hk
    have e := wait_loop_stuck hw.twcr hk 0x8000 0 st.crReads (by omega) rfl
    refine ⟨by rw [e], ?_⟩
    rw [hw1.1, e]
    show st.crReads + 1 + 32768 = _
    omega
  · by_cases h : st.TWBR = 0
    · simp [I2C.read_ack, h]
    · simp only [I2C.read_ack, h, if_false, I2C.get_data]
      exact wait_polls_le hw (I2C.ack_condi st)
  · by_cases h : st.TWBR = 0
    · simp [I2C.read_nack, h]
    · simp only [I2C.read_nack, h, if_false, I2C.get_data]
      exact wait_polls_le hw (I2C.nack_condi st)

theorem wait_terminates_witness :
    ((I2C.wait_loop (scriptBus 0x80 []).twcr 0 0).2 = 0 ∧
      (I2C.wait (scriptBus 0x80 []) configuredTWI).crReads = 0 + 1) ∧
    ((I2C.wait_loop (scriptBus 0x00 []).twcr 0 0).2 = 0x8000 ∧
      (I2C.wait (scriptBus 0x00 []) configuredTWI).crReads = 0 + 0x8001) :=
  ⟨(wait_terminates avrHeader (scriptBus 0x80 []) configuredTWI).2.2.1 (by decide),
   (wait_terminates avrHeader (scriptBus 0x00 []) configuredTWI).2.2.2.1
      (fun k => show (0 % 256 &&& _BV TWINT = 0) by decide)⟩

/-! ## The serial command decoder -/

theorem counter_value (lenH lenL : Nat) (hH : lenH < 256) (hL : lenL < 256) :
    ((lenH <<< 8) % 65536 ||| lenL) % 65536 = lenH * 256 + lenL := by
  have h1 : lenH <<< 8 = 2 ^ 8 * lenH := by rw [Nat.shiftLeft_eq, Nat.mul_comm]
  have h2 : (2 ^ 8 * lenH) % 65536 = 2 ^ 8 * lenH := by omega
  have h3 := Nat.mul_add_lt_is_or (show lenL < 2 ^ 8 by omega) lenH
  rw [h1, h2, ← h3]
  omega

theorem write_TWBR (hdr : Header) (hw : Bus) (st : TWI) (data : Nat) :
    (I2C.write hdr hw st data).2.TWBR = st.TWBR := by
  by_cases h : st.TWBR = 0
  · rw [write_unconfigured hdr hw st data h]
  · rw [write_configured hdr hw st data h]

theorem write_trace (hdr : Header) (hw : Bus) (st : TWI) (data : Nat) (h : st.TWBR ≠ 0) :
    (I2C.write hdr hw st data).2.trace = st.trace ++ [(Reg.TWDR, data), (Reg.TWCR, 0x84)] := by
  rw [write_configured hdr hw st data h]

theorem start_TWBR (hdr : Header) (hw : Bus) (st : TWI) (a : Nat) (m : mode_t) :
    (I2C.start hdr hw st a m).2.TWBR = st.TWBR := by
  by_cases h : st.TWBR = 0
  · rw [start_unconfigured hdr hw st a m h]
  · by_cases hs : statusAt hdr hw st.srReads = TW_START ∨
        statusAt hdr hw st.srReads = TW_REP_START
    · rw [start_accepted_eval hdr hw st a m h hs]
    · rw [start_rejected hdr hw st a m h (by
        constructor
        · intro e; exact hs (Or.inl e)
        · intro e; exact hs (Or.inr e))]
      rfl

theorem recv_fx_address (hdr : Header) (hw : Bus) (s : Decoder) (data : Nat) (h : s.n = 0) :
    recv_fx hdr hw s data =
      { s with
        twi := (I2C.start hdr hw s.twi data mode_t.write).2
        calls := s.calls ++ [Call.start data mode_t.write]
        n := 1 } := by
  simp [recv_fx, h]

theorem recv_fx_len_high (hdr : Header) (hw : Bus) (s : Decoder) (data : Nat) (h : s.n = 1) :
    recv_fx hdr hw s data = { s with counter := (data <<< 8) % 65536, n := 2 } := by
  simp [recv_fx, h]

theorem recv_fx_len_low (hdr : Header) (hw : Bus) (s : Decoder) (data : Nat) (h : s.n = 2) :
    recv_fx hdr hw s data =
      { s with
        counter := (s.counter ||| data) % 65536
        i := 0
        wdt := true
        calls := s.calls ++ [Call.wdt_enable WDTO_120MS]
        n := 3 } := by
  simp [recv_fx, h]

theorem recv_fx_forward (hdr : Header) (hw : Bus) (s : Decoder) (data : Nat) (h : s.n = 3)
    (hi : (s.i + 1) % 65536 < s.counter) :
    recv_fx hdr hw s data =
      { s with
        twi := (I2C.write hdr hw s.twi data).2
        i := (s.i + 1) % 65536
        calls := s.calls ++ [Call.write data, Call.wdt_reset] } := by
  have hi2 : ¬ ((s.i + 1) % 65536 ≥ s.counter) := by omega
  simp only [recv_fx, h]
  simp [hi2]

theorem recv_fx_last (hdr : Header) (hw : Bus) (s : Decoder) (data : Nat) (h : s.n = 3)
    (hi : s.counter ≤ (s.i + 1) % 65536) :
    recv_fx hdr hw s data =
      { s with
        twi := I2C.stop (I2C.write hdr hw s.twi data).2
        i := (s.i + 1) % 65536
        wdt := false
        calls := s.calls ++ [Call.write data, Call.wdt_reset, Call.stop, Call.wdt_disable]
        n := 0 } := by
  have hi2 : (s.i + 1) % 65536 ≥ s.counter := hi
  simp only [recv_fx, h]
  simp [hi2]

theorem feed_cons (hdr : Header) (hw : Bus) (s : Decoder) (b : Nat) (bs : List Nat) :
    feed hdr hw s (b :: bs) = feed hdr hw (recv_fx hdr hw s b) bs := rfl

theorem feed_append (hdr : Header) (hw : Bus) (s : Decoder) (as bs : List Nat) :
    feed hdr hw s (as ++ bs) = feed hdr hw (feed hdr hw s as) bs := by
  simp [feed, List.foldl_append]

theorem feed_header (hdr : Header) (hw : Bus) (s : Decoder) (addr lenH lenL : Nat)
    (h : s.n = 0) :
    feed hdr hw s [addr, lenH, lenL] =
      { n := 3
        i := 0
        counter := ((lenH <<< 8) % 65536 ||| lenL) % 65536
        wdt := true
        calls := s.calls ++ [Call.start addr mode_t.write, Call.wdt_enable WDTO_120MS]
        twi := (I2C.start hdr hw s.twi addr mode_t.write).2 } := by
  rw [feed_cons, recv_fx_address hdr hw s addr h, feed_cons, recv_fx_len_high _ _ _ _ rfl,
    feed_cons, recv_fx_len_low _ _ _ _ rfl]
  simp [feed]

theorem dataWrites_cons (p : Nat) (ps : List Nat) :
    dataWrites (p :: ps) = [(Reg.TWDR, p), (Reg.TWCR, 0x84)] ++ dataWrites ps := by
  simp [dataWrites, List.flatMap_cons]

theorem forwardCalls_cons (p : Nat) (ps : List Nat) :
    forwardCalls (p :: ps) = [Call.write p, Call.wdt_reset] ++ forwardCalls ps := by
  simp [forwardCalls, List.flatMap_cons]

theorem forward_partial (hdr : Header) (hw : Bus) :
    ∀ (ps : List Nat) (s : Decoder), s.n = 3 → s.i + ps.length < s.counter →
      s.counter ≤ 65535 →
      (feed hdr hw s ps).n = 3 ∧
      (feed hdr hw s ps).i = s.i + ps.length ∧
      (feed hdr hw s ps).counter = s.counter ∧
      (feed hdr hw s ps).wdt = s.wdt ∧
      (feed hdr hw s ps).calls = s.calls ++ forwardCalls ps ∧
      (feed hdr hw s ps).twi.TWBR = s.twi.TWBR ∧
      (s.twi.TWBR ≠ 0 → (feed hdr hw s ps).twi.trace = s.twi.trace ++ dataWrites ps) ∧
      (s.twi.TWBR = 0 → (feed hdr hw s ps).twi = s.twi) := by
  intro ps
  induction ps with
  | nil =>
    intro s hn _ _
    simp [feed, hn, forwardCalls, dataWrites]
  | cons p ps ih =>
    intro s hn hlen hc
    have hl : (p :: ps).length = ps.length + 1 := rfl
    have hmod : (s.i + 1) % 65536 = s.i + 1 := by omega
    have hstep := recv_fx_forward hdr hw s p hn (by omega)
    rw [feed_cons, hstep, hmod]
    obtain ⟨a1, a2, a3, a4, a5, a6, a7, a8⟩ :=
      ih { s with
           twi := (I2C.write hdr hw s.twi p).2
           i := s.i + 1
           calls := s.calls ++ [Call.write p, Call.wdt_reset] } hn
        (by show s.i + 1 + ps.length < s.counter; omega) hc
    refine ⟨a1, ?_, a3, a4, ?_, ?_, ?_, ?_⟩
    · rw [a2]; show s.i + 1 + ps.length = _; omega
    · rw [a5, forwardCalls_cons]; simp
    · rw [a6]; exact write_TWBR hdr hw s.twi p
    · intro hcfg
      have hcfg2 : (I2C.write hdr hw s.twi p).2.TWBR ≠ 0 := by
        rw [write_TWBR]; exact hcfg
      rw [a7 hcfg2, dataWrites_cons]
      show (I2C.write hdr hw s.twi p).2.trace ++ dataWrites ps = _
      rw [write_trace hdr hw s.twi p hcfg]
      simp
    · intro hcfg
      have hcfg2 : (I2C.write hdr hw s.twi p).2.TWBR = 0 := by
        rw [write_TWBR]; exact hcfg
      rw [a8 hcfg2]
      show (I2C.write hdr hw s.twi p).2 = _
      rw [write_unconfigured hdr hw s.twi p hcfg]

theorem forward_complete (hdr : Header) (hw : Bus) (ps : List Nat) (q : Nat) (s : Decoder)
    (hn : s.n = 3) (hlen : s.i + ps.length + 1 = s.counter) (hc : s.counter ≤ 65535) :
    (feed hdr hw s (ps ++ [q])).n = 0 ∧
    (feed hdr hw s (ps ++ [q])).wdt = false ∧
    (feed hdr hw s (ps ++ [q])).calls
      = s.calls ++ forwardCalls (ps ++ [q]) ++ [Call.stop, Call.wdt_disable] ∧
    (feed hdr hw s (ps ++ [q])).twi.TWBR = s.twi.TWBR ∧
    (s.twi.TWBR ≠ 0 →
      (feed hdr hw s (ps ++ [q])).twi.trace
        = s.twi.trace ++ dataWrites (ps ++ [q]) ++ [(Reg.TWCR, 0x94)]) := by
  obtain ⟨a1, a2, a3, _, a5, a6, a7, _⟩ := forward_partial hdr hw ps s hn (by omega) hc
  have hstep := recv_fx_last hdr hw (feed hdr hw s ps) q a1 (by rw [a2, a3]; omega)
  have e : feed hdr hw s (ps ++ [q]) = recv_fx hdr hw (feed hdr hw s ps) q := by
    rw [feed_append]; rfl
  rw [e, hstep]
  have hfc : forwardCalls (ps ++ [q]) = forwardCalls ps ++ [Call.write q, Call.wdt_reset] := by
    simp [forwardCalls, List.flatMap_append]
  have hdw : dataWrites (ps ++ [q]) = dataWrites ps ++ [(Reg.TWDR, q), (Reg.TWCR, 0x84)] := by
    simp [dataWrites, List.flatMap_append]
  refine ⟨rfl, rfl, ?_, ?_, ?_⟩
  · show (feed hdr hw s ps).calls ++ _ = _
    rw [a5, hfc]; simp
  · show (I2C.stop (I2C.write hdr hw (feed hdr hw s ps).twi q).2).TWBR = _
    rw [← a6, ← write_TWBR hdr hw (feed hdr hw s ps).twi q]
    rfl
  · intro hcfg
    show (I2C.stop (I2C.write hdr hw (feed hdr hw s ps).twi q).2).trace = _
    have h1 : (I2C.stop (I2C.write hdr hw (feed hdr hw s ps).twi q).2).trace
        = (I2C.write hdr hw (feed hdr hw s ps).twi q).2.trace ++ [(Reg.TWCR, 0x94)] := by
      simp [I2C.stop, I2C.stop_condi, TWI.store, stop_value]
    rw [h1, write_trace hdr hw _ q (by rw [a6]; exact hcfg), a7 hcfg, hdw]
    simp

theorem busEvents_append (xs ys : List (Reg × Nat)) :
    busEvents (xs ++ ys) = busEvents xs ++ busEvents ys := by
  simp [busEvents, List.filterMap_append]

theorem busEvent_send : busEvent (Reg.TWCR, 0x84) = none := by decide
theorem busEvent_reset : busEvent (Reg.TWCR, 0) = none := by decide
theorem busEvent_start : busEvent (Reg.TWCR, 0xA4) = some BusEvent.START := by decide
theorem busEvent_stop : busEvent (Reg.TWCR, 0x94) = some BusEvent.STOP := by decide
theorem busEvent_data (v : Nat) : busEvent (Reg.TWDR, v) = some (BusEvent.DATA v) := rfl

theorem busEvents_dataWrites (ps : List Nat) :
    busEvents (dataWrites ps) = ps.map BusEvent.DATA := by
  induction ps with
  | nil => rfl
  | cons p ps ih =>
    rw [dataWrites_cons, busEvents_append, ih]
    simp [busEvents, busEvent_send, busEvent_data]

theorem busEvents_address (ab : Nat) :
    busEvents [(Reg.TWCR, 0), (Reg.TWCR, 0xA4), (Reg.TWDR, ab), (Reg.TWCR, 0x84)]
      = [BusEvent.START, BusEvent.DATA ab] := by
  simp [busEvents, busEvent_send, busEvent_data, busEvent_reset, busEvent_start]

/-- C1: a complete frame `addr, lenH, lenL, p1, ..., pL` with
`L = lenH*256 + lenL ≥ 1`, received from AwaitAddress (`n = 0`) on a configured
session whose START is answered with `TW_START` or `TW_REP_START`, whatever the
later statuses are, appends to the register trace exactly: `TWCR` cleared, the
START command, then `TWDR` loaded with `((addr << 1) mod 256) | writeBit` and
with `p1, ..., pL` in order (each followed by the transfer command), then the
STOP command. On the bus this is one START, the address byte, the payload bytes
in order, one STOP; the callback has called `start` once, `write` on each
payload byte, `stop` once, and the decoder is back in AwaitAddress with the
watchdog disarmed. -/
theorem frame_forwarded (hdr : Header) (hw : Bus) (s : Decoder)
    (addr lenH lenL : Nat) (payload : List Nat)
    (hn : s.n = 0) (hcfg : s.twi.TWBR ≠ 0)
    (hstart : statusAt hdr hw s.twi.srReads = TW_START ∨
      statusAt hdr hw s.twi.srReads = TW_REP_START)
    (hH : lenH < 256) (hL : lenL < 256)
    (hlen : payload.length = lenH * 256 + lenL) (hpos : 1 ≤ lenH * 256 + lenL) :
    (feed hdr hw s (addr :: lenH :: lenL :: payload)).n = 0 ∧
    (feed hdr hw s (addr :: lenH :: lenL :: payload)).wdt = false ∧
    (feed hdr hw s (addr :: lenH :: lenL :: payload)).twi.trace
      = s.twi.trace ++
        [(Reg.TWCR, 0), (Reg.TWCR, 0xA4),
         (Reg.TWDR, ((addr <<< 1) % 256) ||| hdr.cast mode_t.write), (Reg.TWCR, 0x84)] ++
        dataWrites payload ++ [(Reg.TWCR, 0x94)] ∧
    busEvents (feed hdr hw s (addr :: lenH :: lenL :: payload)).twi.trace
      = busEvents s.twi.trace ++
        [BusEvent.START, BusEvent.DATA (((addr <<< 1) % 256) ||| hdr.cast mode_t.write)] ++
        payload.map BusEvent.DATA ++ [BusEvent.STOP] ∧
    (feed hdr hw s (addr :: lenH :: lenL :: payload)).calls
      = s.calls ++ [Call.start addr mode_t.write, Call.wdt_enable WDTO_120MS] ++
        forwardCalls payload ++ [Call.stop, Call.wdt_disable] := by
  have hne : payload ≠ [] := by
    intro e; rw [e] at hlen; simp at hlen; omega
  have hsplit := List.dropLast_append_getLast hne
  have hlen2 : payload.dropLast.length + 1 = lenH * 256 + lenL := by
    rw [← hlen, List.length_dropLast]
    have : 0 < payload.length := List.length_pos.mpr hne
    omega
  have hfeed : feed hdr hw s (addr :: lenH :: lenL :: payload)
      = feed hdr hw (feed hdr hw s [addr, lenH, lenL]) payload := by
    rw [← feed_append]; rfl
  rw [hfeed, feed_header hdr hw s addr lenH lenL hn, counter_value lenH lenL hH hL]
  have hT : (I2C.start hdr hw s.twi addr mode_t.write).2.TWBR ≠ 0 := by
    rw [start_TWBR]; exact hcfg
  have htr : (I2C.start hdr hw s.twi addr mode_t.write).2.trace
      = s.twi.trace ++ [(Reg.TWCR, 0), (Reg.TWCR, 0xA4),
          (Reg.TWDR, ((addr <<< 1) % 256) ||| hdr.cast mode_t.write), (Reg.TWCR, 0x84)] := by
    exact start_trace_accepted hdr hw s.twi addr mode_t.write hcfg hstart
  obtain ⟨b1, b2, b3, _, b5⟩ := forward_complete hdr hw payload.dropLast (payload.getLast hne)
    { n := 3, i := 0, counter := lenH * 256 + lenL, wdt := true,
      calls := s.calls ++ [Call.start addr mode_t.write, Call.wdt_enable WDTO_120MS],
      twi := (I2C.start hdr hw s.twi addr mode_t.write).2 }
    rfl (by show 0 + payload.dropLast.length + 1 = lenH * 256 + lenL; omega)
    (by show lenH * 256 + lenL ≤ 65535; omega)
  rw [hsplit] at b1 b2 b3 b5
  have b5 := b5 hT
  refine ⟨b1, b2, ?_, ?_, b3⟩
  · rw [b5]
    show (I2C.start hdr hw s.twi addr mode_t.write).2.trace ++ _ ++ _ = _
    rw [htr]
  · rw [b5]
    show busEvents ((I2C.start hdr hw s.twi addr mode_t.write).2.trace ++ _ ++ _) = _
    rw [htr, busEvents_append, busEvents_append, busEvents_append, busEvents_address,
      busEvents_dataWrites]
    simp [busEvents, busEvent_stop]

theorem frame_forwarded_witness :
    (feed avrHeader (scriptBus 0x80 [0, 0x08, 0x18, 0x28, 0x28])
      (boot (scriptBus 0x80 [0, 0x08, 0x18, 0x28, 0x28]) TWI.fresh)
      [0x50, 0x00, 0x02, 0xAA, 0xBB]).n = 0 ∧
    busEvents (feed avrHeader (scriptBus 0x80 [0, 0x08, 0x18, 0x28, 0x28])
      (boot (scriptBus 0x80 [0, 0x08, 0x18, 0x28, 0x28]) TWI.fresh)
      [0x50, 0x00, 0x02, 0xAA, 0xBB]).twi.trace
      = [BusEvent.START, BusEvent.DATA 0xA0, BusEvent.DATA 0xAA, BusEvent.DATA 0xBB,
          BusEvent.STOP] :=
  ⟨(frame_forwarded avrHeader (scriptBus 0x80 [0, 0x08, 0x18, 0x28, 0x28])
      (boot (scriptBus 0x80 [0, 0x08, 0x18, 0x28, 0x28]) TWI.fresh) 0x50 0x00 0x02 [0xAA, 0xBB]
      rfl (by decide) (Or.inl (by decide)) (by decide) (by decide) rfl (by decide)).1,
   (frame_forwarded avrHeader (scriptBus 0x80 [0, 0x08, 0x18, 0x28, 0x28])
      (boot (scriptBus 0x80 [0, 0x08, 0x18, 0x28, 0x28]) TWI.fresh) 0x50 0x00 0x02 [0xAA, 0xBB]
      rfl (by decide) (Or.inl (by decide)) (by decide) (by decide) rfl (by decide)).2.2.2.1⟩

theorem count_stop_data (ps : List Nat) :
    (ps.map BusEvent.DATA).count BusEvent.STOP = 0 := by
  induction ps with
  | nil => rfl
  | cons p ps ih =>
    rw [List.map_cons, List.count_cons, ih]
    simp

theorem start_bus_stops (hdr : Header) (hw : Bus) (st : TWI) (a : Nat) (m : mode_t) :
    (busEvents (I2C.start hdr hw st a m).2.trace).count BusEvent.STOP
      = (busEvents st.trace).count BusEvent.STOP := by
  by_cases h : st.TWBR = 0
  · rw [start_unconfigured hdr hw st a m h]
  · by_cases hs : statusAt hdr hw st.srReads = TW_START ∨
        statusAt hdr hw st.srReads = TW_REP_START
    · rw [start_trace_accepted hdr hw st a m h hs, busEvents_append, busEvents_address,
        List.count_append]
      simp
    · rw [start_rejected hdr hw st a m h (by
        constructor
        · intro e; exact hs (Or.inl e)
        · intro e; exact hs (Or.inr e))]
      show (busEvents (st.trace ++ [(Reg.TWCR, 0), (Reg.TWCR, 0xA4)])).count BusEvent.STOP = _
      rw [busEvents_append, List.count_append]
      have : busEvents [(Reg.TWCR, 0), (Reg.TWCR, 0xA4)] = [BusEvent.START] := by
        simp [busEvents, busEvent_reset, busEvent_start]
      rw [this]
      simp

theorem forwarded_append (xs ys : List Call) :
    forwarded (xs ++ ys) = forwarded xs ++ forwarded ys := by
  simp [forwarded, List.filterMap_append]

theorem forwarded_forwardCalls (ps : List Nat) : forwarded (forwardCalls ps) = ps := by
  induction ps with
  | nil => rfl
  | cons p ps ih =>
    rw [forwardCalls_cons, forwarded_append, ih]
    simp [forwarded]

theorem count_stop_forwardCalls (ps : List Nat) :
    (forwardCalls ps).count Call.stop = 0 := by
  induction ps with
  | nil => rfl
  | cons p ps ih =>
    rw [forwardCalls_cons, List.count_append, ih]
    simp

/-- C3: after the header `addr, lenH, lenL` and `k < L = lenH*256 + lenL`
payload bytes, received from AwaitAddress (`n = 0`), the decoder is in
Forwarding (`n = 3`) with the watchdog armed; the callback has called `start`,
armed the watchdog and then called `write` on exactly those `k` bytes, in order,
each followed by a watchdog refresh; it has not called `stop`, and no STOP
command has been written to the peripheral. -/
theorem incomplete_frame (hdr : Header) (hw : Bus) (s : Decoder)
    (addr lenH lenL : Nat) (ps : List Nat)
    (hn : s.n = 0) (hH : lenH < 256) (hL : lenL < 256)
    (hk : ps.length < lenH * 256 + lenL) :
    (feed hdr hw s (addr :: lenH :: lenL :: ps)).n = 3 ∧
    (feed hdr hw s (addr :: lenH :: lenL :: ps)).wdt = true ∧
    (feed hdr hw s (addr :: lenH :: lenL :: ps)).calls
      = s.calls ++ [Call.start addr mode_t.write, Call.wdt_enable WDTO_120MS] ++
        forwardCalls ps ∧
    forwarded (feed hdr hw s (addr :: lenH :: lenL :: ps)).calls = forwarded s.calls ++ ps ∧
    (forwarded (feed hdr hw s (addr :: lenH :: lenL :: ps)).calls).length
      = (forwarded s.calls).length + ps.length ∧
    (feed hdr hw s (addr :: lenH :: lenL :: ps)).calls.count Call.stop
      = s.calls.count Call.stop ∧
    (busEvents (feed hdr hw s (addr :: lenH :: lenL :: ps)).twi.trace).count BusEvent.STOP
      = (busEvents s.twi.trace).count BusEvent.STOP := by
  have hfeed : feed hdr hw s (addr :: lenH :: lenL :: ps)
      = feed hdr hw (feed hdr hw s [addr, lenH, lenL]) ps := by
    rw [← feed_append]; rfl
  rw [hfeed, feed_header hdr hw s addr lenH lenL hn, counter_value lenH lenL hH hL]
  obtain ⟨b1, _, _, b4, b5, b6, b7, b8⟩ := forward_partial hdr hw ps
    { n := 3, i := 0, counter := lenH * 256 + lenL, wdt := true,
      calls := s.calls ++ [Call.start addr mode_t.write, Call.wdt_enable WDTO_120MS],
      twi := (I2C.start hdr hw s.twi addr mode_t.write).2 }
    rfl (by show 0 + ps.length < lenH * 256 + lenL; omega)
    (by show lenH * 256 + lenL ≤ 65535; omega)
  have hf : forwarded (s.calls ++ [Call.start addr mode_t.write, Call.wdt_enable WDTO_120MS] ++
      forwardCalls ps) = forwarded s.calls ++ ps := by
    rw [forwarded_append, forwarded_append, forwarded_forwardCalls]
    simp [forwarded]
  refine ⟨b1, b4, b5, ?_, ?_, ?_, ?_⟩
  · rw [b5]; exact hf
  · rw [b5, hf, List.length_append]
  · rw [b5, List.count_append, List.count_append, count_stop_forwardCalls]
    simp
  · by_cases hcfg : (I2C.start hdr hw s.twi addr mode_t.write).2.TWBR = 0
    · rw [b8 hcfg]
      exact start_bus_stops hdr hw s.twi addr mode_t.write
    · rw [b7 hcfg, busEvents_append, List.count_append, busEvents_dataWrites, count_stop_data]
      exact start_bus_stops hdr hw s.twi addr mode_t.write

theorem incomplete_frame_witness :
    (feed avrHeader (scriptBus 0x80 [0, 0x08, 0x18, 0x28, 0x28])
      (boot (scriptBus 0x80 [0, 0x08, 0x18, 0x28, 0x28]) TWI.fresh)
      [0x3C, 0xFF, 0xFF, 0x01, 0x02]).n = 3 ∧
    (feed avrHeader (scriptBus 0x80 [0, 0x08, 0x18, 0x28, 0x28])
      (boot (scriptBus 0x80 [0, 0x08, 0x18, 0x28, 0x28]) TWI.fresh)
      [0x3C, 0xFF, 0xFF, 0x01, 0x02]).calls.count Call.stop = 0 :=
  ⟨(incomplete_frame avrHeader (scriptBus 0x80 [0, 0x08, 0x18, 0x28, 0x28])
      (boot (scriptBus 0x80 [0, 0x08, 0x18, 0x28, 0x28]) TWI.fresh) 0x3C 0xFF 0xFF [0x01, 0x02]
      rfl (by decide) (by decide) (by decide)).1,
   (incomplete_frame avrHeader (scriptBus 0x80 [0, 0x08, 0x18, 0x28, 0x28])
      (boot (scriptBus 0x80 [0, 0x08, 0x18, 0x28, 0x28]) TWI.fresh) 0x3C 0xFF 0xFF [0x01, 0x02]
      rfl (by decide) (by decide) (by decide)).2.2.2.2.2.1⟩

/-- C2, as stated, fails: after the zero-length header `0x3C, 0x00, 0x00` the
decoder is in Forwarding (`n = 3`), and the next byte `0x42` is passed to
`I2C::write` as a payload byte; no `I2C::start` is issued for it. -/
theorem zero_length_forwards_next_byte :
    (feed avrHeader (scriptBus 0x80 [0, 0x08, 0x18, 0x28])
      (boot (scriptBus 0x80 [0, 0x08, 0x18, 0x28]) TWI.fresh) [0x3C, 0x00, 0x00]).n = 3 ∧
    (feed avrHeader (scriptBus 0x80 [0, 0x08, 0x18, 0x28])
      (boot (scriptBus 0x80 [0, 0x08, 0x18, 0x28]) TWI.fresh) [0x3C, 0x00, 0x00, 0x42]).calls
      = [Call.start 0x3C mode_t.write, Call.wdt_enable WDTO_120MS, Call.write 0x42,
          Call.wdt_reset, Call.stop, Call.wdt_disable] := by
  constructor
  · rw [feed_header _ _ _ _ _ _ rfl]
  · have e : feed avrHeader (scriptBus 0x80 [0, 0x08, 0x18, 0x28])
        (boot (scriptBus 0x80 [0, 0x08, 0x18, 0x28]) TWI.fresh) [0x3C, 0x00, 0x00, 0x42]
        = recv_fx avrHeader (scriptBus 0x80 [0, 0x08, 0x18, 0x28])
          (feed avrHeader (scriptBus 0x80 [0, 0x08, 0x18, 0x28])
            (boot (scriptBus 0x80 [0, 0x08, 0x18, 0x28]) TWI.fresh) [0x3C, 0x00, 0x00])
          0x42 := rfl
    rw [e, feed_header _ _ _ _ _ _ rfl, recv_fx_last _ _ _ _ rfl (by decide)]
    rfl

/-- C2 (amended): after the zero-length header `addr, 0x00, 0x00`, received
from AwaitAddress, the decoder is in Forwarding (`n = 3`) with a zero counter
and the watchdog armed. The next received byte `b` is forwarded: the callback
calls `I2C::write(b)`, refreshes the watchdog, and closes the frame on that
same byte with `I2C::stop` and `wdt_disable`, returning to AwaitAddress; no
`I2C::start` is issued for `b`. The byte after `b` is the address of a new
frame (`I2C::start(c, write)` is issued for it). -/
theorem zero_length_frame (hdr : Header) (hw : Bus) (s : Decoder) (addr b : Nat)
    (hn : s.n = 0) :
    (feed hdr hw s [addr, 0x00, 0x00]).n = 3 ∧
    (feed hdr hw s [addr, 0x00, 0x00]).counter = 0 ∧
    (feed hdr hw s [addr, 0x00, 0x00]).wdt = true ∧
    (feed hdr hw s [addr, 0x00, 0x00, b]).calls
      = s.calls ++ [Call.start addr mode_t.write, Call.wdt_enable WDTO_120MS,
          Call.write b, Call.wdt_reset, Call.stop, Call.wdt_disable] ∧
    (feed hdr hw s [addr, 0x00, 0x00, b]).n = 0 ∧
    (feed hdr hw s [addr, 0x00, 0x00, b]).wdt = false ∧
    (∀ c : Nat, (feed hdr hw s [addr, 0x00, 0x00, b, c]).n = 1 ∧
      (feed hdr hw s [addr, 0x00, 0x00, b, c]).calls
        = (feed hdr hw s [addr, 0x00, 0x00, b]).calls ++ [Call.start c mode_t.write]) := by
  have e4 : feed hdr hw s [addr, 0x00, 0x00, b]
      = recv_fx hdr hw (feed hdr hw s [addr, 0x00, 0x00]) b := rfl
  have e5 : ∀ c, feed hdr hw s [addr, 0x00, 0x00, b, c]
      = recv_fx hdr hw (feed hdr hw s [addr, 0x00, 0x00, b]) c := fun _ => rfl
  have h4 : feed hdr hw s [addr, 0x00, 0x00, b]
      = { n := 0, i := 1, counter := 0, wdt := false,
          calls := s.calls ++ [Call.start addr mode_t.write, Call.wdt_enable WDTO_120MS,
            Call.write b, Call.wdt_reset, Call.stop, Call.wdt_disable],
          twi := I2C.stop (I2C.write hdr hw
            (I2C.start hdr hw s.twi addr mode_t.write).2 b).2 } := by
    rw [e4, feed_header hdr hw s addr 0 0 hn,
      recv_fx_last _ _ _ _ rfl (show (0 <<< 8 % 65536 ||| 0) % 65536 ≤ (0 + 1) % 65536 by decide)]
    simp
  refine ⟨?_, ?_, ?_, ?_, ?_, ?_, ?_⟩
  · rw [feed_header hdr hw s addr 0 0 hn]
  · rw [feed_header hdr hw s addr 0 0 hn]; rfl
  · rw [feed_header hdr hw s addr 0 0 hn]
  · rw [h4]
  · rw [h4]
  · rw [h4]
  · intro c
    rw [e5 c, h4, recv_fx_address _ _ _ _ rfl]
    exact ⟨rfl, rfl⟩

theorem zero_length_frame_witness :
    (feed avrHeader (scriptBus 0x80 [0, 0x08, 0x18, 0x28])
      (boot (scriptBus 0x80 [0, 0x08, 0x18, 0x28]) TWI.fresh) [0x3C, 0x00, 0x00, 0x42]).n = 0 ∧
    (feed avrHeader (scriptBus 0x80 [0, 0x08, 0x18, 0x28])
      (boot (scriptBus 0x80 [0, 0x08, 0x18, 0x28]) TWI.fresh) [0x3C, 0x00, 0x00, 0x42]).wdt
      = false :=
  ⟨(zero_length_frame avrHeader (scriptBus 0x80 [0, 0x08, 0x18, 0x28])
      (boot (scriptBus 0x80 [0, 0x08, 0x18, 0x28]) TWI.fresh) 0x3C 0x42 rfl).2.2.2.2.1,
   (zero_length_frame avrHeader (scriptBus 0x80 [0, 0x08, 0x18, 0x28])
      (boot (scriptBus 0x80 [0, 0x08, 0x18, 0x28]) TWI.fresh) 0x3C 0x42 rfl).2.2.2.2.2.1⟩

/-! ## The watchdog guard -/

theorem recv_fx_guard (hdr : Header) (hw : Bus) (s : Decoder) (data : Nat)
    (hle : s.n ≤ 3) (hg : s.wdt = true ↔ s.n = 3) :
    (recv_fx hdr hw s data).n ≤ 3 ∧
    ((recv_fx hdr hw s data).wdt = true ↔ (recv_fx hdr hw s data).n = 3) := by
  have hcases : s.n = 0 ∨ s.n = 1 ∨ s.n = 2 ∨ s.n = 3 := by omega
  rcases hcases with h | h | h | h
  · rw [recv_fx_address hdr hw s data h]
    have hf : ¬ (s.wdt = true) := by rw [hg]; omega
    simp [hf]
  · rw [recv_fx_len_high hdr hw s data h]
    have hf : ¬ (s.wdt = true) := by rw [hg]; omega
    simp [hf]
  · rw [recv_fx_len_low hdr hw s data h]
    simp
  · by_cases hi : (s.i + 1) % 65536 < s.counter
    · rw [recv_fx_forward hdr hw s data h hi]
      simp [h, hg]
    · rw [recv_fx_last hdr hw s data h (by omega)]
      simp

theorem feed_guard (hdr : Header) (hw : Bus) :
    ∀ (bytes : List Nat) (s : Decoder), s.n ≤ 3 → (s.wdt = true ↔ s.n = 3) →
      (feed hdr hw s bytes).n ≤ 3 ∧
      ((feed hdr hw s bytes).wdt = true ↔ (feed hdr hw s bytes).n = 3) := by
  intro bytes
  induction bytes with
  | nil => intro s hle hg; exact ⟨hle, hg⟩
  | cons b bs ih =>
    intro s hle hg
    rw [feed_cons]
    obtain ⟨h1, h2⟩ := recv_fx_guard hdr hw s b hle hg
    exact ih _ h1 h2

/-- C10, as stated, fails: after the address byte of a frame the cursor is not
AwaitAddress (`n = 1`, and `n = 2` after the next byte) but the watchdog is not
armed. -/
theorem watchdog_not_armed_in_header :
    (feed avrHeader (scriptBus 0x80 [0, 0x08, 0x18])
      (boot (scriptBus 0x80 [0, 0x08, 0x18]) TWI.fresh) [0x3C]).n = 1 ∧
    (feed avrHeader (scriptBus 0x80 [0, 0x08, 0x18])
      (boot (scriptBus 0x80 [0, 0x08, 0x18]) TWI.fresh) [0x3C]).wdt = false ∧
    (feed avrHeader (scriptBus 0x80 [0, 0x08, 0x18])
      (boot (scriptBus 0x80 [0, 0x08, 0x18]) TWI.fresh) [0x3C, 0x00]).n = 2 ∧
    (feed avrHeader (scriptBus 0x80 [0, 0x08, 0x18])
      (boot (scriptBus 0x80 [0, 0x08, 0x18]) TWI.fresh) [0x3C, 0x00]).wdt = false := by
  have e1 : feed avrHeader (scriptBus 0x80 [0, 0x08, 0x18])
      (boot (scriptBus 0x80 [0, 0x08, 0x18]) TWI.fresh) [0x3C]
      = recv_fx avrHeader (scriptBus 0x80 [0, 0x08, 0x18])
        (boot (scriptBus 0x80 [0, 0x08, 0x18]) TWI.fresh) 0x3C := rfl
  have e2 : feed avrHeader (scriptBus 0x80 [0, 0x08, 0x18])
      (boot (scriptBus 0x80 [0, 0x08, 0x18]) TWI.fresh) [0x3C, 0x00]
      = recv_fx avrHeader (scriptBus 0x80 [0, 0x08, 0x18])
        (recv_fx avrHeader (scriptBus 0x80 [0, 0x08, 0x18])
          (boot (scriptBus 0x80 [0, 0x08, 0x18]) TWI.fresh) 0x3C) 0x00 := rfl
  rw [e2, e1, recv_fx_address _ _ _ _ rfl, recv_fx_len_high _ _ _ _ rfl]
  exact ⟨rfl, rfl, rfl, rfl⟩

/-- C10 (amended): in every state reached by feeding bytes to the callback from
AwaitAddress with the watchdog disarmed, the cursor `n` is one of 0..3 and the
watchdog is armed exactly when the cursor is Forwarding (`n = 3`); so it is not
armed in AwaitAddress, AwaitLenHigh or AwaitLenLow. It is armed by the
length-low byte (`wdt_enable`), refreshed (`wdt_reset`) on every forwarded
payload byte, right after the `I2C::write` of that byte, and disarmed
(`wdt_disable`) by the byte that completes the frame. -/
theorem watchdog_guard (hdr : Header) (hw : Bus) (s0 : Decoder) (bytes : List Nat)
    (h0 : s0.n = 0) (hd : s0.wdt = false) :
    (feed hdr hw s0 bytes).n ≤ 3 ∧
    ((feed hdr hw s0 bytes).wdt = true ↔ (feed hdr hw s0 bytes).n = 3) ∧
    (∀ b : Nat, (feed hdr hw s0 bytes).n = 2 →
      (recv_fx hdr hw (feed hdr hw s0 bytes) b).n = 3 ∧
      (recv_fx hdr hw (feed hdr hw s0 bytes) b).wdt = true ∧
      (recv_fx hdr hw (feed hdr hw s0 bytes) b).calls
        = (feed hdr hw s0 bytes).calls ++ [Call.wdt_enable WDTO_120MS]) ∧
    (∀ b : Nat, (feed hdr hw s0 bytes).n = 3 →
      ((recv_fx hdr hw (feed hdr hw s0 bytes) b).n = 3 ∧
        (recv_fx hdr hw (feed hdr hw s0 bytes) b).wdt = true ∧
        (recv_fx hdr hw (feed hdr hw s0 bytes) b).calls
          = (feed hdr hw s0 bytes).calls ++ [Call.write b, Call.wdt_reset]) ∨
      ((recv_fx hdr hw (feed hdr hw s0 bytes) b).n = 0 ∧
        (recv_fx hdr hw (feed hdr hw s0 bytes) b).wdt = false ∧
        (recv_fx hdr hw (feed hdr hw s0 bytes) b).calls
          = (feed hdr hw s0 bytes).calls ++
            [Call.write b, Call.wdt_reset, Call.stop, Call.wdt_disable])) := by
  obtain ⟨h1, h2⟩ := feed_guard hdr hw bytes s0 (by omega) (by simp [h0, hd])
  refine ⟨h1, h2, ?_, ?_⟩
  · intro b hb
    rw [recv_fx_len_low hdr hw _ b hb]
    exact ⟨rfl, rfl, rfl⟩
  · intro b hb
    by_cases hi : ((feed hdr hw s0 bytes).i + 1) % 65536 < (feed hdr hw s0 bytes).counter
    · left
      rw [recv_fx_forward hdr hw _ b hb hi]
      exact ⟨hb, h2.mpr hb, rfl⟩
    · right
      rw [recv_fx_last hdr hw _ b hb (by omega)]
      exact ⟨rfl, rfl, rfl⟩

theorem watchdog_guard_witness :
    (feed avrHeader (scriptBus 0x80 [0, 0x08, 0x18])
      (boot (scriptBus 0x80 [0, 0x08, 0x18]) TWI.fresh) [0x3C, 0x00, 0x02, 0xAA]).n ≤ 3 ∧
    ((feed avrHeader (scriptBus 0x80 [0, 0x08, 0x18])
      (boot (scriptBus 0x80 [0, 0x08, 0x18]) TWI.fresh) [0x3C, 0x00, 0x02, 0xAA]).wdt = true ↔
     (feed avrHeader (scriptBus 0x80 [0, 0x08, 0x18])
      (boot (scriptBus 0x80 [0, 0x08, 0x18]) TWI.fresh) [0x3C, 0x00, 0x02, 0xAA]).n = 3) :=
  ⟨(watchdog_guard avrHeader (scriptBus 0x80 [0, 0x08, 0x18])
      (boot (scriptBus 0x80 [0, 0x08, 0x18]) TWI.fresh) [0x3C, 0x00, 0x02, 0xAA] rfl rfl).1,
   (watchdog_guard avrHeader (scriptBus 0x80 [0, 0x08, 0x18])
      (boot (scriptBus 0x80 [0, 0x08, 0x18]) TWI.fresh) [0x3C, 0x00, 0x02, 0xAA] rfl rfl).2.1⟩

/-! ## The software-timed driver (`i2c_put_u08`) -/

theorem loop_until_SCL_some (hw : Wire) :
    ∀ (fuel : Nat) (st st1 : USI), loop_until_SCL hw fuel st = some st1 →
      st1.drReads = st.drReads ∧ st1.srReads = st.srReads := by
  intro fuel
  induction fuel with
  | zero => intro st st1 h; simp [loop_until_SCL] at h
  | succ f ih =>
    intro st st1 h
    rw [loop_until_SCL] at h
    split at h
    · injection h with h
      subst h
      exact ⟨rfl, rfl⟩
    · exact ih { st with pinReads := st.pinReads + 1 } st1 h

theorem transfer_loop_some (hw : Wire) (fuel data : Nat) :
    ∀ (rounds : Nat) (st st1 : USI), transfer_loop hw fuel data rounds st = some st1 →
      st1.drReads = st.drReads := by
  intro rounds
  induction rounds with
  | zero => intro st st1 h; simp [transfer_loop] at h
  | succ k ih =>
    intro st st1 h
    rw [transfer_loop] at h
    cases hl : loop_until_SCL hw fuel (st.store UReg.USICR data) with
    | none => rw [hl] at h; simp at h
    | some sa =>
      rw [hl] at h
      have hp := (loop_until_SCL_some hw fuel _ _ hl).1
      dsimp only at h
      split at h
      · rw [ih _ _ h]
        exact hp
      · injection h with h
        subst h
        exact hp

theorem transfer_some (hw : Wire) (fuel : Nat) (st st1 : USI) (data r : Nat)
    (h : transfer hw fuel st data = some (r, st1)) :
    r = hw.usidr st.drReads % 256 ∧ st1.drReads = st.drReads + 1 := by
  unfold transfer at h
  dsimp only at h
  split at h
  · simp at h
  · rename_i st2 hl
    have hp := transfer_loop_some hw fuel _ fuel _ _ hl
    have hp2 : st2.drReads = st.drReads := hp
    injection h with h
    injection h with h1 h2
    subst h1 h2
    rw [hp2]
    exact ⟨rfl, rfl⟩

theorem put_u08_some (hw : Wire) (fuel : Nat) (st st1 : USI) (data ret : Nat)
    (h : i2c_put_u08 hw fuel st data = some (ret, st1)) :
    ret = if hw.usidr (st.drReads + 1) % 256 &&& _BV TWI_NACK_BIT = 0 then 1 else 0 := by
  unfold i2c_put_u08 at h
  dsimp only at h
  split at h
  · simp at h
  · rename_i x st3 h1
    have p1 := (transfer_some hw fuel _ _ _ _ h1).2
    have p1b : st3.drReads = st.drReads + 1 := p1
    split at h
    · simp at h
    · rename_i r st5 h2
      have p2 := (transfer_some hw fuel _ _ _ _ h2).1
      have p2b : r = hw.usidr (st.drReads + 1) % 256 := by
        rw [p2]; show hw.usidr st3.drReads % 256 = _; rw [p1b]
      injection h with h
      injection h with ha hb
      rw [← ha, p2b]
      by_cases hz : hw.usidr (st.drReads + 1) % 256 &&& _BV TWI_NACK_BIT = 0
      · simp [hz]
      · simp [hz]

theorem loop_until_SCL_returns (hw : Wire) :
    ∀ (d : Nat) (st : USI),
      (∃ j, st.pinReads ≤ j ∧ j ≤ st.pinReads + d ∧ hw.pinb j % 256 &&& _BV PIN_USI_SCL ≠ 0) →
      ∃ (f0 : Nat) (st1 : USI), ∀ f, f0 ≤ f → loop_until_SCL hw f st = some st1 := by
  intro d
  induction d with
  | zero =>
    intro st ⟨j, h1, h2, h3⟩
    have hj : j = st.pinReads := by omega
    subst hj
    refine ⟨1, { st with pinReads := st.pinReads + 1 }, ?_⟩
    intro f hf
    obtain ⟨g, rfl⟩ : ∃ g, f = g + 1 := ⟨f - 1, by omega⟩
    rw [loop_until_SCL, if_pos h3]
  | succ d ih =>
    intro st ⟨j, h1, h2, h3⟩
    by_cases hb : hw.pinb st.pinReads % 256 &&& _BV PIN_USI_SCL ≠ 0
    · refine ⟨1, { st with pinReads := st.pinReads + 1 }, ?_⟩
      intro f hf
      obtain ⟨g, rfl⟩ : ∃ g, f = g + 1 := ⟨f - 1, by omega⟩
      rw [loop_until_SCL, if_pos hb]
    · have hne : j ≠ st.pinReads := by
        intro e; rw [e] at h3; exact hb h3
      obtain ⟨f0, st1, hf0⟩ := ih { st with pinReads := st.pinReads + 1 }
        ⟨j, by show st.pinReads + 1 ≤ j; omega, by show j ≤ st.pinReads + 1 + d; omega, h3⟩
      refine ⟨f0 + 1, st1, ?_⟩
      intro f hf
      obtain ⟨g, rfl⟩ : ∃ g, f = g + 1 := ⟨f - 1, by omega⟩
      rw [loop_until_SCL, if_neg hb]
      exact hf0 g (by omega)

theorem transfer_loop_returns (hw : Wire) (data : Nat)
    (hpin : ∀ k, ∃ j, k ≤ j ∧ hw.pinb j % 256 &&& _BV PIN_USI_SCL ≠ 0) :
    ∀ (d : Nat) (st : USI),
      (∃ j, st.srReads ≤ j ∧ j ≤ st.srReads + d ∧ hw.usisr j % 256 &&& _BV USIOIF ≠ 0) →
      ∃ (k0 f0 : Nat) (st1 : USI), ∀ k f, k0 ≤ k → f0 ≤ f →
        transfer_loop hw f data k st = some st1 := by
  intro d
  induction d with
  | zero =>
    intro st ⟨j, h1, h2, h3⟩
    have hj : j = st.srReads := by omega
    subst hj
    obtain ⟨jp, hp1, hp2⟩ := hpin (st.store UReg.USICR data).pinReads
    obtain ⟨fa, sa, hfa⟩ := loop_until_SCL_returns hw (jp - (st.store UReg.USICR data).pinReads)
      (st.store UReg.USICR data) ⟨jp, hp1, by omega, hp2⟩
    have hsr : sa.srReads = st.srReads := (loop_until_SCL_some hw fa _ _ (hfa fa (le_refl _))).2
    refine ⟨1, fa, { sa.store UReg.USICR data with
      srReads := (sa.store UReg.USICR data).srReads + 1 }, ?_⟩
    intro k f hk hf
    obtain ⟨g, rfl⟩ : ∃ g, k = g + 1 := ⟨k - 1, by omega⟩
    rw [transfer_loop, hfa f hf]
    dsimp only
    have hsr2 : (sa.store UReg.USICR data).srReads = st.srReads := hsr
    rw [hsr2, if_neg h3]
  | succ d ih =>
    intro st ⟨j, h1, h2, h3⟩
    obtain ⟨jp, hp1, hp2⟩ := hpin (st.store UReg.USICR data).pinReads
    obtain ⟨fa, sa, hfa⟩ := loop_until_SCL_returns hw (jp - (st.store UReg.USICR data).pinReads)
      (st.store UReg.USICR data) ⟨jp, hp1, by omega, hp2⟩
    have hsr : sa.srReads = st.srReads := (loop_until_SCL_some hw fa _ _ (hfa fa (le_refl _))).2
    have hsr2 : (sa.store UReg.USICR data).srReads = st.srReads := hsr
    by_cases hb : hw.usisr st.srReads % 256 &&& _BV USIOIF = 0
    · have hne : j ≠ st.srReads := by
        intro e; rw [e] at h3; exact h3 hb
      obtain ⟨k0, f0, st1, hk0⟩ := ih
        { sa.store UReg.USICR data with srReads := (sa.store UReg.USICR data).srReads + 1 }
        ⟨j, by show (sa.store UReg.USICR data).srReads + 1 ≤ j; rw [hsr2]; omega,
          by show j ≤ (sa.store UReg.USICR data).srReads + 1 + d; rw [hsr2]; omega, h3⟩
      refine ⟨k0 + 1, max fa f0, st1, ?_⟩
      intro k f hk hf
      obtain ⟨g, rfl⟩ : ∃ g, k = g + 1 := ⟨k - 1, by omega⟩
      rw [transfer_loop, hfa f (le_trans (le_max_left _ _) hf)]
      dsimp only
      rw [hsr2, if_pos hb, ← hsr2]
      exact hk0 g f (by omega) (le_trans (le_max_right _ _) hf)
    · refine ⟨1, fa, { sa.store UReg.USICR data with
        srReads := (sa.store UReg.USICR data).srReads + 1 }, ?_⟩
      intro k f hk hf
      obtain ⟨g, rfl⟩ : ∃ g, k = g + 1 := ⟨k - 1, by omega⟩
      rw [transfer_loop, hfa f hf]
      dsimp only
      rw [hsr2, if_neg hb]

theorem transfer_returns (hw : Wire) (st : USI) (data : Nat)
    (hpin : ∀ k, ∃ j, k ≤ j ∧ hw.pinb j % 256 &&& _BV PIN_USI_SCL ≠ 0)
    (hsr : ∀ k, ∃ j, k ≤ j ∧ hw.usisr j % 256 &&& _BV USIOIF ≠ 0) :
    ∃ (f0 : Nat) (res : Nat × USI), ∀ f, f0 ≤ f → transfer hw f st data = some res := by
  obtain ⟨j, hj1, hj2⟩ := hsr (st.store UReg.USISR data).srReads
  obtain ⟨k0, f0, st1, h⟩ := transfer_loop_returns hw
    (0 <<< USISIE ||| 0 <<< USIOIE ||| 1 <<< USIWM1 ||| 0 <<< USIWM0 |||
      1 <<< USICS1 ||| 0 <<< USICS0 ||| 1 <<< USICLK ||| 1 <<< USITC) hpin
    (j - (st.store UReg.USISR data).srReads) (st.store UReg.USISR data)
    ⟨j, hj1, by omega, hj2⟩
  refine ⟨max k0 f0, (hw.usidr st1.drReads % 256,
    { ({ st1 with drReads := st1.drReads + 1 }.store UReg.USIDR 0xFF).store UReg.DDRB
        ((st1.DDRB ||| _BV PIN_USI_SDA) % 256) with
      DDRB := (st1.DDRB ||| _BV PIN_USI_SDA) % 256 }), ?_⟩
  intro f hf
  have hy := h f f (le_trans (le_max_left _ _) hf) (le_trans (le_max_right _ _) hf)
  unfold transfer
  dsimp only
  rw [hy]
  rfl

theorem put_u08_returns (hw : Wire) (st : USI) (data : Nat)
    (hpin : ∀ k, ∃ j, k ≤ j ∧ hw.pinb j % 256 &&& _BV PIN_USI_SCL ≠ 0)
    (hsr : ∀ k, ∃ j, k ≤ j ∧ hw.usisr j % 256 &&& _BV USIOIF ≠ 0) :
    ∃ (f0 : Nat) (res : Nat × USI), ∀ f, f0 ≤ f → i2c_put_u08 hw f st data = some res := by
  obtain ⟨f1, ⟨r1, s1⟩, h1⟩ := transfer_returns hw
    ({ st.store UReg.PORTB (st.PORTB &&& (0xFF ^^^ _BV PIN_USI_SCL)) with
        PORTB := st.PORTB &&& (0xFF ^^^ _BV PIN_USI_SCL) }.store UReg.USIDR data)
    USISR_8bit hpin hsr
  obtain ⟨f2, ⟨r2, s2⟩, h2⟩ := transfer_returns hw
    { s1.store UReg.DDRB (s1.DDRB &&& (0xFF ^^^ _BV PIN_USI_SDA)) with
        DDRB := s1.DDRB &&& (0xFF ^^^ _BV PIN_USI_SDA) }
    USISR_1bit hpin hsr
  refine ⟨max f1 f2, (if r2 &&& _BV TWI_NACK_BIT ≠ 0 then 0 else 1, s2), ?_⟩
  intro f hf
  unfold i2c_put_u08
  dsimp only
  rw [h1 f (le_trans (le_max_left _ _) hf)]
  dsimp only
  rw [h2 f (le_trans (le_max_right _ _) hf)]

/-- C9: `i2c_put_u08(data)` decodes the acknowledgement from bit `TWI_NACK_BIT`
(bit 0) of the value `r` that its final 1-bit transfer reads from `USIDR` (the
second `USIDR` read of the call). Whenever the call returns, it returns 1 if
that bit of `r` is 0 (ACK) and 0 if it is 1 (NACK), whatever `data` and the
other bits of `r` are; and the call does return when SCL is eventually read
high and the counter-overflow flag eventually read set after every point. -/
theorem put_u08_ack_decoding (hw : Wire) (st : USI) (data : Nat) :
    (∀ (fuel ret : Nat) (st1 : USI), i2c_put_u08 hw fuel st data = some (ret, st1) →
      (ret = 1 ↔ hw.usidr (st.drReads + 1) % 256 &&& _BV TWI_NACK_BIT = 0) ∧
      (ret = 0 ↔ hw.usidr (st.drReads + 1) % 256 &&& _BV TWI_NACK_BIT ≠ 0)) ∧
    ((∀ k, ∃ j, k ≤ j ∧ hw.pinb j % 256 &&& _BV PIN_USI_SCL ≠ 0) →
      (∀ k, ∃ j, k ≤ j ∧ hw.usisr j % 256 &&& _BV USIOIF ≠ 0) →
      ∃ (f0 : Nat) (st1 : USI), ∀ f, f0 ≤ f →
        i2c_put_u08 hw f st data
          = some (if hw.usidr (st.drReads + 1) % 256 &&& _BV TWI_NACK_BIT = 0 then 1 else 0,
              st1)) := by
  constructor
  · intro fuel ret st1 h
    have hr := put_u08_some hw fuel st st1 data ret h
    by_cases hz : hw.usidr (st.drReads + 1) % 256 &&& _BV TWI_NACK_BIT = 0
    · rw [if_pos hz] at hr
      simp [hr, hz]
    · rw [if_neg hz] at hr
      simp [hr, hz]
  · intro hpin hsr
    obtain ⟨f0, ⟨ret, st1⟩, h⟩ := put_u08_returns hw st data hpin hsr
    refine ⟨f0, st1, ?_⟩
    intro f hf
    rw [h f hf, ← put_u08_some hw f0 st st1 data ret (h f0 (le_refl _))]

theorem put_u08_ack_decoding_witness :
    ((0 : Nat) = 0 ↔ (steadyWire 0x01).usidr (USI.fresh.drReads + 1) % 256 &&& _BV TWI_NACK_BIT
      ≠ 0) ∧
    (∃ (f0 : Nat) (st1 : USI), ∀ f, f0 ≤ f →
      i2c_put_u08 (steadyWire 0xFE) f USI.fresh 0xAA
        = some (if (steadyWire 0xFE).usidr (USI.fresh.drReads + 1) % 256 &&& _BV TWI_NACK_BIT = 0
            then 1 else 0, st1)) :=
  ⟨((put_u08_ack_decoding (steadyWire 0x01) USI.fresh 0xAA).1 1 0
      ((i2c_put_u08 (steadyWire 0x01) 1 USI.fresh 0xAA).getD (0, USI.fresh)).2 rfl).2,
   (put_u08_ack_decoding (steadyWire 0xFE) USI.fresh 0xAA).2
      (fun k => ⟨k, le_refl k, show (0x04 % 256 &&& _BV PIN_USI_SCL ≠ 0) by decide⟩)
      (fun k => ⟨k, le_refl k, show (0x40 % 256 &&& _BV USIOIF ≠ 0) by decide⟩)⟩

end OLEDInfo
